import Mathlib

/-!
# Multi_Timer_V2: a shallow embedding of the timer family and its registry

The C++ classes of `Multi_Timer_V2.h` / `Multi_Timer_v2.cpp` are embedded as
pure functions over an explicit record of the member variables.

* `unsigned long` is a natural number reduced modulo `2 ^ w` after every
  addition and subtraction (`w = 32` on the AVR/ARM targets of the library).
* `millis()` is an argument of `update`: the value sampled by that call.
* The virtual `reset()` is dispatched on a `Kind` tag; it returns the boolean
  together with the object, because `RetriggerableTimer::reset` writes its
  private one-shot members.
* The intrusive list (`first`, `next`) is a pointer graph over addresses.
-/

namespace MultiTimer

/-! ## Machine arithmetic -/

/-- Addition of two `unsigned long` values of width `w`. -/
def addW (w a b : Nat) : Nat := (a + b) % 2 ^ w

/-- Subtraction of two `unsigned long` values of width `w` (wraps around). -/
def subW (w a b : Nat) : Nat := (a + (2 ^ w - b % 2 ^ w)) % 2 ^ w

/-! ## Data model -/

/-- The seven concrete classes deriving from `Multi_Timer`. -/
inductive Kind where
  | onDelay
  | offDelay
  | retentive
  | pulseGen
  | latched
  | retriggerable
  | flasher
  deriving DecidableEq, Repr

/-- Member variables of a timer object: the protected members of
`Multi_Timer` followed by the private members of `RetriggerableTimer`. -/
structure Multi_Timer where
  _Reset : Bool
  _Enable : Bool
  _Done : Bool
  _Control : Bool
  _TimerRunning : Bool
  _Done_OSF : Bool
  _Done_OSR : Bool
  _Done_Rising_Setup : Bool
  _Done_Falling_Setup : Bool
  _FlashOut : Bool
  _Accumulator : Nat
  _CurrentMillis : Nat
  _LastMillis : Nat
  _OnTime : Nat
  _Preset : Nat
  _WD_Rising_OS : Bool
  _WD_Falling_OS : Bool
  _WD_Falling_Setup : Bool
  _WD_Rising_Setup : Bool
  deriving DecidableEq, Repr

/-! ## Accessors -/

def Multi_Timer.setEnable (s : Multi_Timer) (en : Bool) : Multi_Timer :=
  { s with _Enable := en }

def Multi_Timer.isEnabled (s : Multi_Timer) : Bool := s._Enable

def Multi_Timer.setReset (s : Multi_Timer) (rst : Bool) : Multi_Timer :=
  { s with _Reset := rst }

def Multi_Timer.isReset (s : Multi_Timer) : Bool := s._Reset

def Multi_Timer.isDone (s : Multi_Timer) : Bool := s._Done

def Multi_Timer.isRunning (s : Multi_Timer) : Bool := s._TimerRunning

def Multi_Timer.setCtrl (s : Multi_Timer) (ctrl : Bool) : Multi_Timer :=
  { s with _Control := ctrl }

def Multi_Timer.getCount (s : Multi_Timer) : Nat := s._Accumulator

def Multi_Timer.getDoneRose (s : Multi_Timer) : Bool := s._Done_OSR

def Multi_Timer.getDoneFell (s : Multi_Timer) : Bool := s._Done_OSF

/-! ## Reset predicates of the derived classes -/

def OnDelayTimer.reset (s : Multi_Timer) : Bool × Multi_Timer :=
  (s._Reset || !s._Enable, s)

def OffDelayTimer.reset (s : Multi_Timer) : Bool × Multi_Timer :=
  (s._Reset || s._Enable, s)

def RetentiveTimer.reset (s : Multi_Timer) : Bool × Multi_Timer :=
  (s._Reset, s)

def PulseGenTimer.reset (s : Multi_Timer) : Bool × Multi_Timer :=
  (s._Reset || s._Done_OSR, s)

def LatchedTimer.reset (s : Multi_Timer) : Bool × Multi_Timer :=
  (s._Reset && s._Done, s)

def RetriggerableTimer.reset (s : Multi_Timer) : Bool × Multi_Timer :=
  let s1 := { s with _WD_Rising_OS := s._Control && s._WD_Rising_Setup }
  let s2 := { s1 with _WD_Rising_Setup := !s1._Control }
  let s3 := { s2 with _WD_Falling_OS := !s2._Control && s2._WD_Falling_Setup }
  let s4 := { s3 with _WD_Falling_Setup := s3._Control }
  (s4._WD_Falling_OS || s4._WD_Rising_OS || s4._Reset, s4)

def FlasherTimer.reset (s : Multi_Timer) : Bool × Multi_Timer :=
  (!s._Enable || s._Done_OSR, s)

/-- Virtual dispatch of `reset()`. -/
def reset (k : Kind) (s : Multi_Timer) : Bool × Multi_Timer :=
  match k with
  | .onDelay => OnDelayTimer.reset s
  | .offDelay => OffDelayTimer.reset s
  | .retentive => RetentiveTimer.reset s
  | .pulseGen => PulseGenTimer.reset s
  | .latched => LatchedTimer.reset s
  | .retriggerable => RetriggerableTimer.reset s
  | .flasher => FlasherTimer.reset s

/-! ## `Multi_Timer::update`, in the order of its statements -/

/-- Lines 147-155: sample the clock, accumulate, clamp, remember the clock. -/
def Multi_Timer.accumulate (w millis : Nat) (s : Multi_Timer) : Multi_Timer :=
  let s := { s with _CurrentMillis := millis }
  let s :=
    if s._Enable || s._Control then
      let s := { s with
        _Accumulator := subW w (addW w s._Accumulator s._CurrentMillis) s._LastMillis }
      if s._Accumulator ≥ s._Preset then
        { s with _Accumulator := s._Preset, _Done := true }
      else s
    else s
  { s with _LastMillis := s._CurrentMillis }

/-- Lines 157-162: ask the derived class and clear the timer when it says so. -/
def Multi_Timer.clearIfReset (k : Kind) (s : Multi_Timer) : Multi_Timer :=
  let r := reset k s
  let s := r.2
  if r.1 then { s with _Done := false, _Accumulator := 0, _Control := false } else s

/-- Lines 167-175 (and 283-291): the two one-scan flags and their latches. -/
def Multi_Timer.edges (s : Multi_Timer) : Multi_Timer :=
  let s := { s with _Done_OSR := s._Done && s._Done_Rising_Setup }
  let s := { s with _Done_Rising_Setup := !s._Done }
  let s := { s with _Done_OSF := !s._Done && s._Done_Falling_Setup }
  { s with _Done_Falling_Setup := s._Done }

/-- Lines 180-182: the running flag. -/
def Multi_Timer.conditionRunning (s : Multi_Timer) : Multi_Timer :=
  if (s._Enable || s._Control) && !s._Done && !s._Reset then
    { s with _TimerRunning := true }
  else { s with _TimerRunning := false }

/-- The base `Multi_Timer::update()`; the returned boolean is `return _Done`. -/
def Multi_Timer.update (w : Nat) (k : Kind) (millis : Nat) (s : Multi_Timer) :
    Bool × Multi_Timer :=
  let s := Multi_Timer.accumulate w millis s
  let s := Multi_Timer.clearIfReset k s
  let s := Multi_Timer.edges s
  let s := Multi_Timer.conditionRunning s
  (s._Done, s)

/-! ## `OffDelayTimer::update` -/

/-- Lines 262-273 with `enableOff = !_Enable`. -/
def OffDelayTimer.accumulate (w millis : Nat) (s : Multi_Timer) : Multi_Timer :=
  let enableOff := !s._Enable
  let s := { s with _CurrentMillis := millis }
  let s :=
    if enableOff then
      let s := { s with
        _Accumulator := subW w (addW w s._Accumulator s._CurrentMillis) s._LastMillis }
      if s._Accumulator ≥ s._Preset then
        { s with _Accumulator := s._Preset, _Done := false }
      else s
    else s
  { s with _LastMillis := s._CurrentMillis }

/-- Lines 275-278. -/
def OffDelayTimer.clearIfReset (s : Multi_Timer) : Multi_Timer :=
  let enableOff := !s._Enable
  if s._Reset || !enableOff then { s with _Done := true, _Accumulator := 0 } else s

/-- Lines 296-298. -/
def OffDelayTimer.conditionRunning (s : Multi_Timer) : Multi_Timer :=
  let enableOff := !s._Enable
  if enableOff && s._Done && !s._Reset then
    { s with _TimerRunning := true }
  else { s with _TimerRunning := false }

/-- The override `OffDelayTimer::update()`; it ends in `return !_Done`. -/
def OffDelayTimer.update (w millis : Nat) (s : Multi_Timer) : Bool × Multi_Timer :=
  let s := OffDelayTimer.accumulate w millis s
  let s := OffDelayTimer.clearIfReset s
  let s := Multi_Timer.edges s
  let s := OffDelayTimer.conditionRunning s
  (!s._Done, s)

/-- Virtual dispatch of `update()`: only `OffDelayTimer` overrides it. -/
def update (w : Nat) (k : Kind) (millis : Nat) (s : Multi_Timer) : Bool × Multi_Timer :=
  match k with
  | .offDelay => OffDelayTimer.update w millis s
  | k => Multi_Timer.update w k millis s

/-! ## Methods of single derived classes -/

def LatchedTimer.Start (s : Multi_Timer) (strt : Bool) : Multi_Timer :=
  if !strt then s else { s with _Control := true }

def FlasherTimer.isFlashing (s : Multi_Timer) : Bool × Multi_Timer :=
  let s := if s._Accumulator ≤ s._OnTime then { s with _FlashOut := true }
           else { s with _FlashOut := false }
  (s._FlashOut && s._Enable, s)

def FlasherTimer.setOnTime (s : Multi_Timer) (newOnTime : Nat) : Multi_Timer :=
  let s := { s with _OnTime := newOnTime }
  { s with _Accumulator := s._Preset }

/-! ## Construction of the member variables -/

/-- The two-argument constructor assigns exactly `_Preset`, `_OnTime` and
`_Control`; every other member keeps what the storage `mem` held. -/
def Multi_Timer.construct (mem : Multi_Timer) (pre onTime : Nat) : Multi_Timer :=
  let s := { mem with _Preset := pre }
  let s := { s with _OnTime := onTime }
  { s with _Control := false }

/-- The one-argument constructor delegates with `onTime = 0UL`. -/
def Multi_Timer.construct1 (mem : Multi_Timer) (pre : Nat) : Multi_Timer :=
  Multi_Timer.construct mem pre 0

/-- Zero-initialised storage (objects of static storage duration). -/
def zeroed : Multi_Timer :=
  { _Reset := false, _Enable := false, _Done := false, _Control := false,
    _TimerRunning := false, _Done_OSF := false, _Done_OSR := false,
    _Done_Rising_Setup := false, _Done_Falling_Setup := false, _FlashOut := false,
    _Accumulator := 0, _CurrentMillis := 0, _LastMillis := 0, _OnTime := 0, _Preset := 0,
    _WD_Rising_OS := false, _WD_Falling_OS := false, _WD_Falling_Setup := false,
    _WD_Rising_Setup := false }

/-! ## The caller: input writes between scans, and scans driven by a clock -/

/-- A call the sketch can make on a timer between two `update()` calls. -/
inductive Call where
  | setEnable (en : Bool)
  | setReset (rst : Bool)
  | setCtrl (ctrl : Bool)
  | Start (strt : Bool)
  | setOnTime (newOnTime : Nat)
  | isFlashing
  deriving DecidableEq, Repr

/-- Effect of one call on the member variables. -/
def Call.apply (c : Call) (s : Multi_Timer) : Multi_Timer :=
  match c with
  | .setEnable en => s.setEnable en
  | .setReset rst => s.setReset rst
  | .setCtrl ctrl => s.setCtrl ctrl
  | .Start strt => LatchedTimer.Start s strt
  | .setOnTime x => FlasherTimer.setOnTime s x
  | .isFlashing => (FlasherTimer.isFlashing s).2

/-- Effect of a sequence of calls, first call first. -/
def applyCalls (cs : List Call) (s : Multi_Timer) : Multi_Timer :=
  cs.foldl (fun s c => c.apply s) s

/-- One scan: the caller writes its inputs, then `update()` samples `millis`. -/
def scan (w : Nat) (k : Kind) (inputs : List Call) (millis : Nat) (s : Multi_Timer) :
    Multi_Timer :=
  (update w k millis (applyCalls inputs s)).2

/-- The state after `n` scans with the same input writes each scan, the clock
reading `t0` before the first scan and advancing by one tick per scan. -/
def runTicks (w : Nat) (k : Kind) (inputs : List Call) (t0 : Nat) :
    Nat → Multi_Timer → Multi_Timer
  | 0, s => s
  | n + 1, s => scan w k inputs (addW w t0 (n + 1)) (runTicks w k inputs t0 n s)

/-! ## The registry: `first`, `next`, constructor, destructor, `updateAllTimers` -/

/-- The static `first` pointer and the `next` member of the object at each
address; `none` is `nullptr`. -/
structure Registry where
  first : Option Nat
  next : Nat → Option Nat

/-- Constructor, lines 57-60: `while (ptr->next != nullptr) ptr = ptr->next;`. -/
def Registry.walkToLast (next : Nat → Option Nat) : Nat → Nat → Option Nat
  | 0, _ => none
  | fuel + 1, ptr =>
    match next ptr with
    | none => some ptr
    | some q => Registry.walkToLast next fuel q

/-- Constructor, lines 49-62, for the object at address `this`. -/
def Registry.construct (fuel : Nat) (r : Registry) (this : Nat) : Option Registry :=
  let next := Function.update r.next this none
  match r.first with
  | none => some { first := some this, next := next }
  | some f =>
    match Registry.walkToLast next fuel f with
    | none => none
    | some ptr => some { first := some f, next := Function.update next ptr (some this) }

/-- Destructor, lines 79-82: `while (ptr->next != this) ptr = ptr->next;`
(dereferencing `nullptr` has no result). -/
def Registry.walkToPred (next : Nat → Option Nat) (this : Nat) :
    Nat → Option Nat → Option Nat
  | 0, _ => none
  | _ + 1, none => none
  | fuel + 1, some ptr =>
    if next ptr = some this then some ptr
    else Registry.walkToPred next this fuel (next ptr)

/-- Destructor, lines 74-87, for the object at address `this`. -/
def Registry.destruct (fuel : Nat) (r : Registry) (this : Nat) : Option Registry :=
  if r.first = some this then some { r with first := r.next this }
  else
    match Registry.walkToPred r.next this fuel r.first with
    | none => none
    | some ptr => some { r with next := Function.update r.next ptr (r.next this) }

/-- The loop of `updateAllTimers`, lines 196-198; `call ptr` is the effect of
`ptr->update()` on the rest of the program state. -/
def Registry.visit {σ : Type} (call : Nat → σ → σ) (next : Nat → Option Nat) :
    Nat → Option Nat → σ → Option σ
  | _, none, world => some world
  | 0, some _, _ => none
  | fuel + 1, some ptr, world => Registry.visit call next fuel (next ptr) (call ptr world)

/-- The static method `updateAllTimers`. -/
def Registry.updateAllTimers {σ : Type} (call : Nat → σ → σ) (fuel : Nat) (r : Registry)
    (world : σ) : Option σ :=
  Registry.visit call r.next fuel r.first world

/-- Creation or destruction of the timer object at an address. -/
inductive Op where
  | create (this : Nat)
  | destroy (this : Nat)
  deriving DecidableEq, Repr

/-- Run constructors and destructors in program order. -/
def Registry.run (fuel : Nat) : List Op → Registry → Option Registry
  | [], r => some r
  | .create a :: ops, r =>
    match Registry.construct fuel r a with
    | none => none
    | some r1 => Registry.run fuel ops r1
  | .destroy a :: ops, r =>
    match Registry.destruct fuel r a with
    | none => none
    | some r1 => Registry.run fuel ops r1

/-- Specification side: the live timers in order of creation, starting from
the live list `l`. -/
def liveAfter : List Op → List Nat → List Nat
  | [], l => l
  | .create a :: ops, l => liveAfter ops (l ++ [a])
  | .destroy a :: ops, l => liveAfter ops (l.erase a)

/-- Specification side: every creation is at an address not live and every
destruction is of a live timer. -/
def legalFrom : List Op → List Nat → Bool
  | [], _ => true
  | .create a :: ops, l => !l.contains a && legalFrom ops (l ++ [a])
  | .destroy a :: ops, l => l.contains a && legalFrom ops (l.erase a)

/-- The pointer graph holds exactly the list `l`, starting at `p`. -/
def Registry.IsList (next : Nat → Option Nat) : Option Nat → List Nat → Prop
  | p, [] => p = none
  | p, a :: l => p = some a ∧ Registry.IsList next (next a) l

/-- The input writes of a driver that holds `enable = true`, `reset = false`
and `control = false`. -/
def holdEnabled : List Call := [.setEnable true, .setReset false, .setCtrl false]

/-- The input writes of a driver that holds `enable = true` and `reset = false`
and never touches `control`. -/
def holdEnabledOnly : List Call := [.setEnable true, .setReset false]

/-- A timer with preset `pre` just cleared by an `update()` that sampled `t0`:
accumulator 0, not done, no edge flag, rising latch armed. -/
def clearedAt (pre t0 : Nat) : Multi_Timer :=
  { zeroed with _Preset := pre, _LastMillis := t0, _CurrentMillis := t0,
                _Done_Rising_Setup := true }

/-- The input writes of a driver that holds `enable = false` and
`reset = false`. -/
def holdDisabled : List Call := [.setEnable false, .setReset false]

/-- Specification side: the duality between an off-delay object `o` and an
on-delay object `n`: same preset, accumulator, `_LastMillis`, reset and
running flag; enable negated; control false on the on-delay side; done
negated; the two edge flags swapped and the two arming latches swapped. -/
def OffOnDual (o n : Multi_Timer) : Prop :=
  o._Preset = n._Preset ∧ o._Accumulator = n._Accumulator ∧
  o._LastMillis = n._LastMillis ∧ o._Reset = n._Reset ∧
  o._TimerRunning = n._TimerRunning ∧ o._Enable = (!n._Enable) ∧
  n._Control = false ∧ o._Done = (!n._Done) ∧
  o._Done_OSR = n._Done_OSF ∧ o._Done_OSF = n._Done_OSR ∧
  o._Done_Rising_Setup = n._Done_Falling_Setup ∧
  o._Done_Falling_Setup = n._Done_Rising_Setup

instance (o n : Multi_Timer) : Decidable (OffOnDual o n) := by
  unfold OffOnDual
  infer_instance

/-- The state after a sequence of scans, each with its own input writes and
its own clock sample. -/
def runScans (w : Nat) (k : Kind) : List (List Call × Nat) → Multi_Timer → Multi_Timer
  | [], s => s
  | (inputs, millis) :: rest, s => runScans w k rest (scan w k inputs millis s)

end MultiTimer



/-! # Theorems -/

namespace MultiTimer

/-! ## Each stage of `update()` as a single record update -/

theorem accumulate_eq (w millis : Nat) (s : Multi_Timer) :
    Multi_Timer.accumulate w millis s =
      { s with
        _CurrentMillis := millis
        _LastMillis := millis
        _Accumulator :=
          if s._Enable || s._Control then
            min (subW w (addW w s._Accumulator millis) s._LastMillis) s._Preset
          else s._Accumulator
        _Done := s._Done || ((s._Enable || s._Control) &&
          decide (s._Preset ≤ subW w (addW w s._Accumulator millis) s._LastMillis)) } := by
  unfold Multi_Timer.accumulate
  dsimp only
  split_ifs with h1 h2
  · simp only [h1, h2, if_true, Bool.true_and, decide_True, Bool.or_true, min_eq_right h2]
  · have h3 : ¬ s._Preset ≤ subW w (addW w s._Accumulator millis) s._LastMillis := h2
    simp only [h1, if_true, Bool.true_and, h3, decide_False, Bool.or_false,
      min_eq_left (Nat.le_of_lt (Nat.lt_of_not_le h3))]
  · simp only [h1, Bool.false_and, Bool.or_false]

theorem clearIfReset_eq (k : Kind) (s : Multi_Timer) :
    Multi_Timer.clearIfReset k s =
      { (reset k s).2 with
        _Done := !(reset k s).1 && (reset k s).2._Done
        _Accumulator := if (reset k s).1 then 0 else (reset k s).2._Accumulator
        _Control := !(reset k s).1 && (reset k s).2._Control } := by
  unfold Multi_Timer.clearIfReset
  dsimp only
  split_ifs with h
  · simp only [h, Bool.not_true, Bool.false_and, if_true]
  · simp only [h, Bool.not_false, Bool.true_and]

theorem conditionRunning_eq (s : Multi_Timer) :
    Multi_Timer.conditionRunning s =
      { s with _TimerRunning := (s._Enable || s._Control) && !s._Done && !s._Reset } := by
  unfold Multi_Timer.conditionRunning
  split_ifs with h
  · rw [h]
  · rw [Bool.not_eq_true] at h
    rw [h]

theorem offDelay_accumulate_eq (w millis : Nat) (s : Multi_Timer) :
    OffDelayTimer.accumulate w millis s =
      { s with
        _CurrentMillis := millis
        _LastMillis := millis
        _Accumulator :=
          if !s._Enable then
            min (subW w (addW w s._Accumulator millis) s._LastMillis) s._Preset
          else s._Accumulator
        _Done := s._Done && !((!s._Enable) &&
          decide (s._Preset ≤ subW w (addW w s._Accumulator millis) s._LastMillis)) } := by
  unfold OffDelayTimer.accumulate
  dsimp only
  split_ifs with h1 h2
  · simp only [h1, h2, if_true, Bool.true_and, decide_True, Bool.not_true, Bool.and_false,
      min_eq_right h2]
  · have h3 : ¬ s._Preset ≤ subW w (addW w s._Accumulator millis) s._LastMillis := h2
    simp only [h1, if_true, Bool.true_and, h3, decide_False, Bool.not_false, Bool.and_true,
      min_eq_left (Nat.le_of_lt (Nat.lt_of_not_le h3))]
  · simp only [h1, Bool.false_and, Bool.not_false, Bool.and_true]

theorem offDelay_clearIfReset_eq (s : Multi_Timer) :
    OffDelayTimer.clearIfReset s =
      { s with
        _Done := s._Done || (s._Reset || s._Enable)
        _Accumulator := if s._Reset || s._Enable then 0 else s._Accumulator } := by
  unfold OffDelayTimer.clearIfReset
  dsimp only
  rw [Bool.not_not]
  split_ifs with h
  · simp only [h, Bool.or_true, if_true]
  · simp only [h, Bool.or_false]

theorem offDelay_conditionRunning_eq (s : Multi_Timer) :
    OffDelayTimer.conditionRunning s =
      { s with _TimerRunning := (!s._Enable) && s._Done && !s._Reset } := by
  unfold OffDelayTimer.conditionRunning
  dsimp only
  split_ifs with h
  · rw [h]
  · rw [Bool.not_eq_true] at h
    rw [h]

/-! ## `reset()` leaves the members of the base class alone -/

@[simp] theorem reset_snd_Reset (k : Kind) (s : Multi_Timer) :
    (reset k s).2._Reset = s._Reset := by
  cases k <;> rfl

@[simp] theorem reset_snd_Enable (k : Kind) (s : Multi_Timer) :
    (reset k s).2._Enable = s._Enable := by
  cases k <;> rfl

@[simp] theorem reset_snd_Done (k : Kind) (s : Multi_Timer) :
    (reset k s).2._Done = s._Done := by
  cases k <;> rfl

@[simp] theorem reset_snd_Control (k : Kind) (s : Multi_Timer) :
    (reset k s).2._Control = s._Control := by
  cases k <;> rfl

@[simp] theorem reset_snd_TimerRunning (k : Kind) (s : Multi_Timer) :
    (reset k s).2._TimerRunning = s._TimerRunning := by
  cases k <;> rfl

@[simp] theorem reset_snd_Done_OSF (k : Kind) (s : Multi_Timer) :
    (reset k s).2._Done_OSF = s._Done_OSF := by
  cases k <;> rfl

@[simp] theorem reset_snd_Done_OSR (k : Kind) (s : Multi_Timer) :
    (reset k s).2._Done_OSR = s._Done_OSR := by
  cases k <;> rfl

@[simp] theorem reset_snd_Done_Rising_Setup (k : Kind) (s : Multi_Timer) :
    (reset k s).2._Done_Rising_Setup = s._Done_Rising_Setup := by
  cases k <;> rfl

@[simp] theorem reset_snd_Done_Falling_Setup (k : Kind) (s : Multi_Timer) :
    (reset k s).2._Done_Falling_Setup = s._Done_Falling_Setup := by
  cases k <;> rfl

@[simp] theorem reset_snd_FlashOut (k : Kind) (s : Multi_Timer) :
    (reset k s).2._FlashOut = s._FlashOut := by
  cases k <;> rfl

@[simp] theorem reset_snd_Accumulator (k : Kind) (s : Multi_Timer) :
    (reset k s).2._Accumulator = s._Accumulator := by
  cases k <;> rfl

@[simp] theorem reset_snd_CurrentMillis (k : Kind) (s : Multi_Timer) :
    (reset k s).2._CurrentMillis = s._CurrentMillis := by
  cases k <;> rfl

@[simp] theorem reset_snd_LastMillis (k : Kind) (s : Multi_Timer) :
    (reset k s).2._LastMillis = s._LastMillis := by
  cases k <;> rfl

@[simp] theorem reset_snd_OnTime (k : Kind) (s : Multi_Timer) :
    (reset k s).2._OnTime = s._OnTime := by
  cases k <;> rfl

@[simp] theorem reset_snd_Preset (k : Kind) (s : Multi_Timer) :
    (reset k s).2._Preset = s._Preset := by
  cases k <;> rfl

/-! ## The members after a whole `update()` -/

theorem base_update_fst (w : Nat) (k : Kind) (millis : Nat) (s : Multi_Timer) :
    (Multi_Timer.update w k millis s).1 = (Multi_Timer.update w k millis s).2._Done := by
  simp only [Multi_Timer.update, conditionRunning_eq]

theorem base_update_Done (w : Nat) (k : Kind) (millis : Nat) (s : Multi_Timer) :
    (Multi_Timer.update w k millis s).2._Done =
      (!(reset k (Multi_Timer.accumulate w millis s)).1 &&
        (Multi_Timer.accumulate w millis s)._Done) := by
  simp only [Multi_Timer.update, conditionRunning_eq, Multi_Timer.edges, clearIfReset_eq,
    reset_snd_Done]

theorem base_update_Accumulator (w : Nat) (k : Kind) (millis : Nat) (s : Multi_Timer) :
    (Multi_Timer.update w k millis s).2._Accumulator =
      if (reset k (Multi_Timer.accumulate w millis s)).1 then 0
      else (Multi_Timer.accumulate w millis s)._Accumulator := by
  simp only [Multi_Timer.update, conditionRunning_eq, Multi_Timer.edges, clearIfReset_eq,
    reset_snd_Accumulator]

theorem base_update_Control (w : Nat) (k : Kind) (millis : Nat) (s : Multi_Timer) :
    (Multi_Timer.update w k millis s).2._Control =
      (!(reset k (Multi_Timer.accumulate w millis s)).1 && s._Control) := by
  simp only [Multi_Timer.update, conditionRunning_eq, Multi_Timer.edges, clearIfReset_eq,
    reset_snd_Control, accumulate_eq]

theorem base_update_Preset (w : Nat) (k : Kind) (millis : Nat) (s : Multi_Timer) :
    (Multi_Timer.update w k millis s).2._Preset = s._Preset := by
  simp only [Multi_Timer.update, conditionRunning_eq, Multi_Timer.edges, clearIfReset_eq,
    reset_snd_Preset, accumulate_eq]

theorem base_update_LastMillis (w : Nat) (k : Kind) (millis : Nat) (s : Multi_Timer) :
    (Multi_Timer.update w k millis s).2._LastMillis = millis := by
  simp only [Multi_Timer.update, conditionRunning_eq, Multi_Timer.edges, clearIfReset_eq,
    reset_snd_LastMillis, accumulate_eq]

theorem base_update_Enable (w : Nat) (k : Kind) (millis : Nat) (s : Multi_Timer) :
    (Multi_Timer.update w k millis s).2._Enable = s._Enable := by
  simp only [Multi_Timer.update, conditionRunning_eq, Multi_Timer.edges, clearIfReset_eq,
    reset_snd_Enable, accumulate_eq]

theorem base_update_Reset (w : Nat) (k : Kind) (millis : Nat) (s : Multi_Timer) :
    (Multi_Timer.update w k millis s).2._Reset = s._Reset := by
  simp only [Multi_Timer.update, conditionRunning_eq, Multi_Timer.edges, clearIfReset_eq,
    reset_snd_Reset, accumulate_eq]

theorem base_update_Done_OSR (w : Nat) (k : Kind) (millis : Nat) (s : Multi_Timer) :
    (Multi_Timer.update w k millis s).2._Done_OSR =
      ((Multi_Timer.update w k millis s).2._Done && s._Done_Rising_Setup) := by
  simp only [Multi_Timer.update, conditionRunning_eq, Multi_Timer.edges, clearIfReset_eq,
    reset_snd_Done_Rising_Setup, accumulate_eq]

theorem base_update_Done_OSF (w : Nat) (k : Kind) (millis : Nat) (s : Multi_Timer) :
    (Multi_Timer.update w k millis s).2._Done_OSF =
      (!(Multi_Timer.update w k millis s).2._Done && s._Done_Falling_Setup) := by
  simp only [Multi_Timer.update, conditionRunning_eq, Multi_Timer.edges, clearIfReset_eq,
    reset_snd_Done_Falling_Setup, accumulate_eq]

theorem base_update_Done_Rising_Setup (w : Nat) (k : Kind) (millis : Nat) (s : Multi_Timer) :
    (Multi_Timer.update w k millis s).2._Done_Rising_Setup =
      !(Multi_Timer.update w k millis s).2._Done := by
  simp only [Multi_Timer.update, conditionRunning_eq, Multi_Timer.edges]

theorem base_update_Done_Falling_Setup (w : Nat) (k : Kind) (millis : Nat) (s : Multi_Timer) :
    (Multi_Timer.update w k millis s).2._Done_Falling_Setup =
      (Multi_Timer.update w k millis s).2._Done := by
  simp only [Multi_Timer.update, conditionRunning_eq, Multi_Timer.edges]

theorem base_update_TimerRunning (w : Nat) (k : Kind) (millis : Nat) (s : Multi_Timer) :
    (Multi_Timer.update w k millis s).2._TimerRunning =
      ((s._Enable || (Multi_Timer.update w k millis s).2._Control) &&
        !(Multi_Timer.update w k millis s).2._Done && !s._Reset) := by
  simp only [Multi_Timer.update, conditionRunning_eq, Multi_Timer.edges, clearIfReset_eq,
    reset_snd_Enable, reset_snd_Reset, accumulate_eq]

theorem offDelay_update_fst (w millis : Nat) (s : Multi_Timer) :
    (OffDelayTimer.update w millis s).1 = !(OffDelayTimer.update w millis s).2._Done := by
  simp only [OffDelayTimer.update, offDelay_conditionRunning_eq]

theorem offDelay_update_Done (w millis : Nat) (s : Multi_Timer) :
    (OffDelayTimer.update w millis s).2._Done =
      ((OffDelayTimer.accumulate w millis s)._Done || (s._Reset || s._Enable)) := by
  simp only [OffDelayTimer.update, offDelay_conditionRunning_eq, Multi_Timer.edges,
    offDelay_clearIfReset_eq, offDelay_accumulate_eq]

theorem offDelay_update_Accumulator (w millis : Nat) (s : Multi_Timer) :
    (OffDelayTimer.update w millis s).2._Accumulator =
      if s._Reset || s._Enable then 0
      else (OffDelayTimer.accumulate w millis s)._Accumulator := by
  simp only [OffDelayTimer.update, offDelay_conditionRunning_eq, Multi_Timer.edges,
    offDelay_clearIfReset_eq, offDelay_accumulate_eq]

theorem offDelay_update_Preset (w millis : Nat) (s : Multi_Timer) :
    (OffDelayTimer.update w millis s).2._Preset = s._Preset := by
  simp only [OffDelayTimer.update, offDelay_conditionRunning_eq, Multi_Timer.edges,
    offDelay_clearIfReset_eq, offDelay_accumulate_eq]

theorem offDelay_update_LastMillis (w millis : Nat) (s : Multi_Timer) :
    (OffDelayTimer.update w millis s).2._LastMillis = millis := by
  simp only [OffDelayTimer.update, offDelay_conditionRunning_eq, Multi_Timer.edges,
    offDelay_clearIfReset_eq, offDelay_accumulate_eq]

theorem offDelay_update_Done_OSR (w millis : Nat) (s : Multi_Timer) :
    (OffDelayTimer.update w millis s).2._Done_OSR =
      ((OffDelayTimer.update w millis s).2._Done && s._Done_Rising_Setup) := by
  simp only [OffDelayTimer.update, offDelay_conditionRunning_eq, Multi_Timer.edges,
    offDelay_clearIfReset_eq, offDelay_accumulate_eq]

theorem offDelay_update_Done_OSF (w millis : Nat) (s : Multi_Timer) :
    (OffDelayTimer.update w millis s).2._Done_OSF =
      (!(OffDelayTimer.update w millis s).2._Done && s._Done_Falling_Setup) := by
  simp only [OffDelayTimer.update, offDelay_conditionRunning_eq, Multi_Timer.edges,
    offDelay_clearIfReset_eq, offDelay_accumulate_eq]

theorem offDelay_update_Done_Rising_Setup (w millis : Nat) (s : Multi_Timer) :
    (OffDelayTimer.update w millis s).2._Done_Rising_Setup =
      !(OffDelayTimer.update w millis s).2._Done := by
  simp only [OffDelayTimer.update, offDelay_conditionRunning_eq, Multi_Timer.edges]

theorem offDelay_update_Done_Falling_Setup (w millis : Nat) (s : Multi_Timer) :
    (OffDelayTimer.update w millis s).2._Done_Falling_Setup =
      (OffDelayTimer.update w millis s).2._Done := by
  simp only [OffDelayTimer.update, offDelay_conditionRunning_eq, Multi_Timer.edges]

/-- Virtual dispatch, spelled out. -/
theorem update_eq (w : Nat) (k : Kind) (millis : Nat) (s : Multi_Timer) :
    update w k millis s =
      if k = Kind.offDelay then OffDelayTimer.update w millis s
      else Multi_Timer.update w k millis s := by
  cases k <;> rfl

/-! ## The one-scan flags of every kind -/

theorem update_Done_OSR (w : Nat) (k : Kind) (millis : Nat) (s : Multi_Timer) :
    (update w k millis s).2._Done_OSR =
      ((update w k millis s).2._Done && s._Done_Rising_Setup) := by
  rw [update_eq]
  split_ifs
  · exact offDelay_update_Done_OSR w millis s
  · exact base_update_Done_OSR w k millis s

theorem update_Done_OSF (w : Nat) (k : Kind) (millis : Nat) (s : Multi_Timer) :
    (update w k millis s).2._Done_OSF =
      (!(update w k millis s).2._Done && s._Done_Falling_Setup) := by
  rw [update_eq]
  split_ifs
  · exact offDelay_update_Done_OSF w millis s
  · exact base_update_Done_OSF w k millis s

theorem update_Done_Rising_Setup (w : Nat) (k : Kind) (millis : Nat) (s : Multi_Timer) :
    (update w k millis s).2._Done_Rising_Setup = !(update w k millis s).2._Done := by
  rw [update_eq]
  split_ifs
  · exact offDelay_update_Done_Rising_Setup w millis s
  · exact base_update_Done_Rising_Setup w k millis s

theorem update_Done_Falling_Setup (w : Nat) (k : Kind) (millis : Nat) (s : Multi_Timer) :
    (update w k millis s).2._Done_Falling_Setup = (update w k millis s).2._Done := by
  rw [update_eq]
  split_ifs
  · exact offDelay_update_Done_Falling_Setup w millis s
  · exact base_update_Done_Falling_Setup w k millis s

/-! ## Calls between scans -/

theorem Start_eq (s : Multi_Timer) (strt : Bool) :
    LatchedTimer.Start s strt = { s with _Control := strt || s._Control } := by
  cases strt <;> rfl

theorem isFlashing_eq (s : Multi_Timer) :
    FlasherTimer.isFlashing s =
      (decide (s._Accumulator ≤ s._OnTime) && s._Enable,
        { s with _FlashOut := decide (s._Accumulator ≤ s._OnTime) }) := by
  unfold FlasherTimer.isFlashing
  dsimp only
  split_ifs with h
  · simp only [h, decide_True]
  · simp only [h, decide_False]

/-- No call other than `update()` writes `_Done` or the two arming latches. -/
theorem Call.apply_frame (c : Call) (s : Multi_Timer) :
    (c.apply s)._Done = s._Done ∧
    (c.apply s)._Done_Rising_Setup = s._Done_Rising_Setup ∧
    (c.apply s)._Done_Falling_Setup = s._Done_Falling_Setup := by
  cases c <;>
    simp only [Call.apply, Multi_Timer.setEnable, Multi_Timer.setReset, Multi_Timer.setCtrl,
      Start_eq, FlasherTimer.setOnTime, isFlashing_eq, and_self]

theorem applyCalls_frame (cs : List Call) (s : Multi_Timer) :
    (applyCalls cs s)._Done = s._Done ∧
    (applyCalls cs s)._Done_Rising_Setup = s._Done_Rising_Setup ∧
    (applyCalls cs s)._Done_Falling_Setup = s._Done_Falling_Setup := by
  induction cs generalizing s with
  | nil => exact ⟨rfl, rfl, rfl⟩
  | cons c cs ih =>
    obtain ⟨h1, h2, h3⟩ := ih (c.apply s)
    obtain ⟨g1, g2, g3⟩ := Call.apply_frame c s
    exact ⟨h1.trans g1, h2.trans g2, h3.trans g3⟩

/-! ## The accumulation step clamps at the preset -/

theorem accumulate_le (w millis : Nat) (s : Multi_Timer) (h : s._Accumulator ≤ s._Preset) :
    (Multi_Timer.accumulate w millis s)._Accumulator ≤ s._Preset := by
  simp only [accumulate_eq]
  split_ifs
  · exact Nat.min_le_right _ _
  · exact h

theorem offDelay_accumulate_le (w millis : Nat) (s : Multi_Timer)
    (h : s._Accumulator ≤ s._Preset) :
    (OffDelayTimer.accumulate w millis s)._Accumulator ≤ s._Preset := by
  simp only [offDelay_accumulate_eq]
  split_ifs
  · exact Nat.min_le_right _ _
  · exact h

/-! ## C1 - C4: invariants of a single `update()` -/

/-- C1: for every timer kind, every input setting and every pair of clock
values, `update()` keeps `_Accumulator ≤ _Preset` (and does not write
`_Preset`); `FlasherTimer::setOnTime` keeps the bound as well. -/
theorem update_accumulator_le_preset (w : Nat) (k : Kind) (millis : Nat) (s : Multi_Timer)
    (h : s._Accumulator ≤ s._Preset) :
    (update w k millis s).2._Accumulator ≤ (update w k millis s).2._Preset ∧
    (update w k millis s).2._Preset = s._Preset ∧
    ∀ newOnTime : Nat,
      (FlasherTimer.setOnTime s newOnTime)._Accumulator ≤
        (FlasherTimer.setOnTime s newOnTime)._Preset := by
  refine ⟨?_, ?_, fun x => Nat.le_refl _⟩
  · rw [update_eq]
    split_ifs
    · rw [offDelay_update_Accumulator, offDelay_update_Preset]
      split_ifs
      · exact Nat.zero_le _
      · exact offDelay_accumulate_le w millis s h
    · rw [base_update_Accumulator, base_update_Preset]
      split_ifs
      · exact Nat.zero_le _
      · exact accumulate_le w millis s h
  · rw [update_eq]
    split_ifs
    · exact offDelay_update_Preset w millis s
    · exact base_update_Preset w k millis s

/-- Witness for C1: an on-delay timer half way to its preset. -/
theorem update_accumulator_le_preset_witness :
    ({ zeroed with _Preset := 10, _Accumulator := 4, _Enable := true } : Multi_Timer)._Accumulator
        ≤ ({ zeroed with _Preset := 10, _Accumulator := 4, _Enable := true } :
            Multi_Timer)._Preset ∧
      (update 32 Kind.onDelay 3
        { zeroed with _Preset := 10, _Accumulator := 4, _Enable := true }).2._Accumulator ≤
      (update 32 Kind.onDelay 3
        { zeroed with _Preset := 10, _Accumulator := 4, _Enable := true }).2._Preset :=
  ⟨by decide,
    (update_accumulator_le_preset 32 Kind.onDelay 3
      { zeroed with _Preset := 10, _Accumulator := 4, _Enable := true } (by decide)).1⟩

/-- C2: for every timer kind, state, inputs and clock value, `getDoneRose()`
and `getDoneFell()` are not both true after `update()`. -/
theorem update_not_rose_and_fell (w : Nat) (k : Kind) (millis : Nat) (s : Multi_Timer) :
    ¬ ((update w k millis s).2.getDoneRose = true ∧
       (update w k millis s).2.getDoneFell = true) := by
  unfold Multi_Timer.getDoneRose Multi_Timer.getDoneFell
  rw [update_Done_OSR, update_Done_OSF]
  cases (update w k millis s).2._Done <;> simp

/-- C3: for every timer kind and two consecutive `update()` calls with any
calls of `setEnable`, `setReset`, `setCtrl`, `Start`, `setOnTime` (or
`isFlashing`) in between, after the second call `getDoneRose()` holds exactly
when `isDone()` holds now and did not after the first call, and
`getDoneFell()` holds exactly when `isDone()` fails now and held after the
first call. -/
theorem edges_follow_done_transitions (w : Nat) (k : Kind) (t1 t2 : Nat) (s : Multi_Timer)
    (calls : List Call) :
    ((update w k t2 (applyCalls calls (update w k t1 s).2)).2.getDoneRose = true ↔
      ((update w k t2 (applyCalls calls (update w k t1 s).2)).2.isDone = true ∧
        (update w k t1 s).2.isDone = false)) ∧
    ((update w k t2 (applyCalls calls (update w k t1 s).2)).2.getDoneFell = true ↔
      ((update w k t2 (applyCalls calls (update w k t1 s).2)).2.isDone = false ∧
        (update w k t1 s).2.isDone = true)) := by
  unfold Multi_Timer.getDoneRose Multi_Timer.getDoneFell Multi_Timer.isDone
  obtain ⟨-, h2, h3⟩ := applyCalls_frame calls (update w k t1 s).2
  rw [update_Done_OSR, update_Done_OSF, h2, h3, update_Done_Rising_Setup,
    update_Done_Falling_Setup]
  cases (update w k t2 (applyCalls calls (update w k t1 s).2)).2._Done <;>
    cases (update w k t1 s).2._Done <;> simp

/-- C4 (the code at the failing input): an off-delay timer in zeroed storage
with preset 5 and `enable = true`; `update()` returns `false` while `isDone()`
reports `true` right after the call. -/
theorem offDelay_update_return_differs_from_isDone :
    (update 32 Kind.offDelay 0 ((Multi_Timer.construct1 zeroed 5).setEnable true)).1 = false ∧
    (update 32 Kind.offDelay 0
      ((Multi_Timer.construct1 zeroed 5).setEnable true)).2.isDone = true := by
  decide

/-! ## Clock arithmetic -/

/-- Subtracting the previous clock sample from the sum of the accumulator and
the new sample adds the elapsed ticks `d`, modulo the word size. -/
theorem subW_addW_tick (w a t l d : Nat) (hl : l % 2 ^ w = t % 2 ^ w) :
    subW w (addW w a ((t + d) % 2 ^ w)) l = (a + d) % 2 ^ w := by
  unfold subW addW
  have hr : t % 2 ^ w < 2 ^ w := Nat.mod_lt _ (Nat.two_pow_pos w)
  rw [hl]
  apply Nat.ModEq.add_right_cancel' (t % 2 ^ w)
  have e : (a + (t + d) % 2 ^ w) % 2 ^ w + (2 ^ w - t % 2 ^ w) + t % 2 ^ w
      = (a + (t + d) % 2 ^ w) % 2 ^ w + 2 ^ w := by omega
  rw [e]
  calc (a + (t + d) % 2 ^ w) % 2 ^ w + 2 ^ w
      ≡ (a + (t + d) % 2 ^ w) % 2 ^ w [MOD 2 ^ w] := by
        simp [Nat.ModEq]
    _ ≡ a + (t + d) % 2 ^ w [MOD 2 ^ w] := Nat.mod_modEq _ _
    _ ≡ a + (t + d) [MOD 2 ^ w] := Nat.ModEq.add_left _ (Nat.mod_modEq _ _)
    _ = a + d + t := by ring
    _ ≡ a + d + t % 2 ^ w [MOD 2 ^ w] := Nat.ModEq.add_left _ (Nat.mod_modEq _ _).symm

/-! ## C5: the on-delay timer under a clock of one tick per scan -/

/-- One scan of an on-delay timer whose driver holds `enable`. -/
theorem onDelay_scan (w millis : Nat) (s : Multi_Timer) :
    (scan w Kind.onDelay holdEnabled millis s)._Preset = s._Preset ∧
    (scan w Kind.onDelay holdEnabled millis s)._LastMillis = millis ∧
    (scan w Kind.onDelay holdEnabled millis s)._Done =
      (s._Done || decide (s._Preset ≤ subW w (addW w s._Accumulator millis) s._LastMillis)) ∧
    (scan w Kind.onDelay holdEnabled millis s)._Accumulator =
      min (subW w (addW w s._Accumulator millis) s._LastMillis) s._Preset ∧
    (scan w Kind.onDelay holdEnabled millis s)._Done_OSR =
      ((scan w Kind.onDelay holdEnabled millis s)._Done && s._Done_Rising_Setup) ∧
    (scan w Kind.onDelay holdEnabled millis s)._Done_Rising_Setup =
      !(scan w Kind.onDelay holdEnabled millis s)._Done := by
  have hk : update w Kind.onDelay millis = Multi_Timer.update w Kind.onDelay millis := rfl
  simp only [scan, hk, base_update_Preset, base_update_LastMillis, base_update_Done,
    base_update_Accumulator, base_update_Done_OSR, base_update_Done_Rising_Setup]
  simp [holdEnabled, applyCalls, Call.apply, Multi_Timer.setEnable, Multi_Timer.setReset,
    Multi_Timer.setCtrl, reset, OnDelayTimer.reset, accumulate_eq]

/-- What the on-delay timer holds after `n` scans. -/
theorem onDelay_runTicks_inv (w P t0 : Nat) (s0 : Multi_Timer) (hP1 : 1 ≤ P)
    (hPw : P < 2 ^ w) (hacc : s0._Accumulator = 0) (hdone : s0._Done = false)
    (harm : s0._Done_Rising_Setup = true) (hlast : s0._LastMillis = t0)
    (hpre : s0._Preset = P) (n : Nat) :
    (runTicks w Kind.onDelay holdEnabled t0 n s0)._Preset = P ∧
    (runTicks w Kind.onDelay holdEnabled t0 n s0)._LastMillis % 2 ^ w = (t0 + n) % 2 ^ w ∧
    (runTicks w Kind.onDelay holdEnabled t0 n s0)._Done = decide (P ≤ n) ∧
    (runTicks w Kind.onDelay holdEnabled t0 n s0)._Done_Rising_Setup = decide (n < P) ∧
    (n < P → (runTicks w Kind.onDelay holdEnabled t0 n s0)._Accumulator = n) := by
  induction n with
  | zero =>
    refine ⟨hpre, by rw [← hlast]; rfl, ?_, ?_, fun _ => hacc⟩
    · simp only [runTicks, hdone]
      exact (decide_eq_false (by omega)).symm
    · simp only [runTicks, harm]
      exact (decide_eq_true (by omega)).symm
  | succ n ih =>
    obtain ⟨i1, i2, i3, i4, i5⟩ := ih
    obtain ⟨h1, h2, h3, h4, -, h6⟩ :=
      onDelay_scan w (addW w t0 (n + 1)) (runTicks w Kind.onDelay holdEnabled t0 n s0)
    have hV : subW w (addW w (runTicks w Kind.onDelay holdEnabled t0 n s0)._Accumulator
          (addW w t0 (n + 1))) (runTicks w Kind.onDelay holdEnabled t0 n s0)._LastMillis
        = ((runTicks w Kind.onDelay holdEnabled t0 n s0)._Accumulator + 1) % 2 ^ w :=
      subW_addW_tick w _ (t0 + n) _ 1 i2
    rw [hV, i1, i3] at h3
    rw [hV, i1] at h4
    have hD : (runTicks w Kind.onDelay holdEnabled t0 (n + 1) s0)._Done
        = decide (P ≤ n + 1) := by
      show (scan w Kind.onDelay holdEnabled (addW w t0 (n + 1))
        (runTicks w Kind.onDelay holdEnabled t0 n s0))._Done = _
      rw [h3]
      by_cases hn : n < P
      · rw [i5 hn, Nat.mod_eq_of_lt (by omega), decide_eq_false (by omega : ¬ P ≤ n)]
        rfl
      · rw [decide_eq_true (by omega : P ≤ n), decide_eq_true (by omega : P ≤ n + 1)]
        rfl
    refine ⟨h1.trans i1, ?_, hD, ?_, ?_⟩
    · show (scan w Kind.onDelay holdEnabled (addW w t0 (n + 1))
        (runTicks w Kind.onDelay holdEnabled t0 n s0))._LastMillis % 2 ^ w = _
      rw [h2]
      exact Nat.mod_mod _ _
    · show (scan w Kind.onDelay holdEnabled (addW w t0 (n + 1))
        (runTicks w Kind.onDelay holdEnabled t0 n s0))._Done_Rising_Setup = _
      rw [h6]
      change (!(runTicks w Kind.onDelay holdEnabled t0 (n + 1) s0)._Done) = _
      rw [hD]
      by_cases hn : n + 1 < P
      · rw [decide_eq_false (by omega : ¬ P ≤ n + 1), decide_eq_true hn]
        rfl
      · rw [decide_eq_true (by omega : P ≤ n + 1), decide_eq_false hn]
        rfl
    · intro hn
      show (scan w Kind.onDelay holdEnabled (addW w t0 (n + 1))
        (runTicks w Kind.onDelay holdEnabled t0 n s0))._Accumulator = _
      rw [h4, i5 (by omega), Nat.mod_eq_of_lt (by omega)]
      exact Nat.min_eq_left (by omega)

/-- C5: an on-delay timer with preset `P ≥ 1`, cleared and with `_LastMillis`
equal to the clock, then scanned with `enable = true`, `reset = false`,
`control = false` while the clock advances one tick per scan: after the
`n`-th scan (`n ≥ 1`) `isDone()` holds iff `n ≥ P` and `getDoneRose()` holds
iff `n = P`. -/
theorem onDelay_done_from_preset_on (w P t0 n : Nat) (s0 : Multi_Timer) (hP1 : 1 ≤ P)
    (hPw : P < 2 ^ w) (hacc : s0._Accumulator = 0) (hdone : s0._Done = false)
    (harm : s0._Done_Rising_Setup = true) (hlast : s0._LastMillis = t0)
    (hpre : s0._Preset = P) (hn : 1 ≤ n) :
    ((runTicks w Kind.onDelay holdEnabled t0 n s0).isDone = true ↔ P ≤ n) ∧
    ((runTicks w Kind.onDelay holdEnabled t0 n s0).getDoneRose = true ↔ n = P) := by
  obtain ⟨m, rfl⟩ : ∃ m, n = m + 1 := ⟨n - 1, by omega⟩
  obtain ⟨-, -, j3, -, -⟩ := onDelay_runTicks_inv w P t0 s0 hP1 hPw hacc hdone harm hlast hpre (m + 1)
  obtain ⟨-, -, -, i4, -⟩ := onDelay_runTicks_inv w P t0 s0 hP1 hPw hacc hdone harm hlast hpre m
  obtain ⟨-, -, -, -, h5, -⟩ :=
    onDelay_scan w (addW w t0 (m + 1)) (runTicks w Kind.onDelay holdEnabled t0 m s0)
  refine ⟨?_, ?_⟩
  · unfold Multi_Timer.isDone
    rw [j3]
    exact decide_eq_true_iff
  · unfold Multi_Timer.getDoneRose
    show (scan w Kind.onDelay holdEnabled (addW w t0 (m + 1))
        (runTicks w Kind.onDelay holdEnabled t0 m s0))._Done_OSR = true ↔ _
    rw [h5, i4]
    change ((runTicks w Kind.onDelay holdEnabled t0 (m + 1) s0)._Done && decide (m < P)) = true ↔ _
    rw [j3, Bool.and_eq_true, decide_eq_true_iff, decide_eq_true_iff]
    omega

/-- Witness for C5: preset 3, clock at 5, 32-bit words, third scan. -/
theorem onDelay_done_from_preset_on_witness :
    ((runTicks 32 Kind.onDelay holdEnabled 5 3 (clearedAt 3 5)).isDone = true ↔ 3 ≤ 3) ∧
    ((runTicks 32 Kind.onDelay holdEnabled 5 3 (clearedAt 3 5)).getDoneRose = true ↔ 3 = 3) :=
  onDelay_done_from_preset_on 32 3 5 3 (clearedAt 3 5) (by decide) (by decide) rfl rfl rfl rfl
    rfl (by decide)

/-! ## C6: the pulse generator under a clock of one tick per scan -/

/-- One scan of a pulse generator whose driver holds `enable`. -/
theorem pulseGen_scan (w millis : Nat) (s : Multi_Timer) :
    (scan w Kind.pulseGen holdEnabledOnly millis s)._Preset = s._Preset ∧
    (scan w Kind.pulseGen holdEnabledOnly millis s)._LastMillis = millis ∧
    (scan w Kind.pulseGen holdEnabledOnly millis s)._Done =
      (!s._Done_OSR && (s._Done ||
        decide (s._Preset ≤ subW w (addW w s._Accumulator millis) s._LastMillis))) ∧
    (scan w Kind.pulseGen holdEnabledOnly millis s)._Accumulator =
      (if s._Done_OSR then 0
       else min (subW w (addW w s._Accumulator millis) s._LastMillis) s._Preset) ∧
    (scan w Kind.pulseGen holdEnabledOnly millis s)._Done_OSR =
      ((scan w Kind.pulseGen holdEnabledOnly millis s)._Done && s._Done_Rising_Setup) ∧
    (scan w Kind.pulseGen holdEnabledOnly millis s)._Done_Rising_Setup =
      !(scan w Kind.pulseGen holdEnabledOnly millis s)._Done := by
  have hk : update w Kind.pulseGen millis = Multi_Timer.update w Kind.pulseGen millis := rfl
  simp only [scan, hk, base_update_Preset, base_update_LastMillis, base_update_Done,
    base_update_Accumulator, base_update_Done_OSR, base_update_Done_Rising_Setup]
  simp [holdEnabledOnly, applyCalls, Call.apply, Multi_Timer.setEnable, Multi_Timer.setReset,
    reset, PulseGenTimer.reset, accumulate_eq]

/-- The position in a cycle of `P + 1` scans, one scan later. -/
theorem succ_mod_period (P n : Nat) :
    (n + 1) % (P + 1) = if n % (P + 1) = P then 0 else n % (P + 1) + 1 := by
  have hr : n % (P + 1) < P + 1 := Nat.mod_lt _ (Nat.succ_pos P)
  rw [Nat.add_mod]
  split_ifs with h
  · rw [h]
    rcases Nat.eq_zero_or_pos P with h0 | h0
    · subst h0
      rfl
    · rw [Nat.mod_eq_of_lt (by omega : 1 < P + 1), Nat.mod_self]
  · have h1 : 1 < P + 1 := by omega
    rw [Nat.mod_eq_of_lt h1, Nat.mod_eq_of_lt (by omega)]

/-- What the pulse generator holds after `n` scans: the accumulator is the
position in a cycle of `P + 1` scans and `_Done` marks the last position. -/
theorem pulseGen_runTicks_inv (w P t0 : Nat) (s0 : Multi_Timer) (hP1 : 1 ≤ P)
    (hPw : P < 2 ^ w) (hacc : s0._Accumulator = 0) (hdone : s0._Done = false)
    (hosr : s0._Done_OSR = false) (harm : s0._Done_Rising_Setup = true)
    (hlast : s0._LastMillis = t0) (hpre : s0._Preset = P) (n : Nat) :
    (runTicks w Kind.pulseGen holdEnabledOnly t0 n s0)._Preset = P ∧
    (runTicks w Kind.pulseGen holdEnabledOnly t0 n s0)._LastMillis % 2 ^ w
      = (t0 + n) % 2 ^ w ∧
    (runTicks w Kind.pulseGen holdEnabledOnly t0 n s0)._Done = decide (n % (P + 1) = P) ∧
    (runTicks w Kind.pulseGen holdEnabledOnly t0 n s0)._Done_OSR
      = decide (n % (P + 1) = P) ∧
    (runTicks w Kind.pulseGen holdEnabledOnly t0 n s0)._Done_Rising_Setup
      = !decide (n % (P + 1) = P) ∧
    (runTicks w Kind.pulseGen holdEnabledOnly t0 n s0)._Accumulator = n % (P + 1) := by
  induction n with
  | zero =>
    have h0 : ¬ 0 % (P + 1) = P := by
      rw [Nat.zero_mod]
      omega
    refine ⟨hpre, by rw [← hlast]; rfl, ?_, ?_, ?_, ?_⟩
    · simp only [runTicks, hdone, decide_eq_false h0]
    · simp only [runTicks, hosr, decide_eq_false h0]
    · simp only [runTicks, harm, decide_eq_false h0, Bool.not_false]
    · simp only [runTicks, hacc, Nat.zero_mod]
  | succ n ih =>
    obtain ⟨i1, i2, i3, i4, i5, i6⟩ := ih
    obtain ⟨h1, h2, h3, h4, h5, h6⟩ :=
      pulseGen_scan w (addW w t0 (n + 1)) (runTicks w Kind.pulseGen holdEnabledOnly t0 n s0)
    have hV : subW w (addW w (runTicks w Kind.pulseGen holdEnabledOnly t0 n s0)._Accumulator
          (addW w t0 (n + 1))) (runTicks w Kind.pulseGen holdEnabledOnly t0 n s0)._LastMillis
        = ((runTicks w Kind.pulseGen holdEnabledOnly t0 n s0)._Accumulator + 1) % 2 ^ w :=
      subW_addW_tick w _ (t0 + n) _ 1 i2
    have hr : n % (P + 1) < P + 1 := Nat.mod_lt _ (Nat.succ_pos P)
    rw [hV, i1, i3, i4, i6] at h3
    rw [hV, i1, i4, i6] at h4
    rw [i5] at h5
    have hstep := succ_mod_period P n
    have hD : (runTicks w Kind.pulseGen holdEnabledOnly t0 (n + 1) s0)._Done
        = decide ((n + 1) % (P + 1) = P) := by
      show (scan w Kind.pulseGen holdEnabledOnly (addW w t0 (n + 1))
        (runTicks w Kind.pulseGen holdEnabledOnly t0 n s0))._Done = _
      rw [h3, hstep]
      by_cases hn : n % (P + 1) = P
      · rw [if_pos hn, decide_eq_true hn, decide_eq_false (by omega : ¬ 0 = P)]
        rfl
      · rw [if_neg hn, decide_eq_false hn, Nat.mod_eq_of_lt (by omega)]
        by_cases hn1 : n % (P + 1) + 1 = P
        · rw [decide_eq_true hn1, decide_eq_true (by omega : P ≤ n % (P + 1) + 1)]
          rfl
        · rw [decide_eq_false hn1, decide_eq_false (by omega : ¬ P ≤ n % (P + 1) + 1)]
          rfl
    refine ⟨h1.trans i1, ?_, hD, ?_, ?_, ?_⟩
    · show (scan w Kind.pulseGen holdEnabledOnly (addW w t0 (n + 1))
        (runTicks w Kind.pulseGen holdEnabledOnly t0 n s0))._LastMillis % 2 ^ w = _
      rw [h2]
      exact Nat.mod_mod _ _
    · show (scan w Kind.pulseGen holdEnabledOnly (addW w t0 (n + 1))
        (runTicks w Kind.pulseGen holdEnabledOnly t0 n s0))._Done_OSR = _
      rw [h5]
      change ((runTicks w Kind.pulseGen holdEnabledOnly t0 (n + 1) s0)._Done &&
        !decide (n % (P + 1) = P)) = _
      rw [hD, hstep]
      by_cases hn : n % (P + 1) = P
      · rw [if_pos hn, decide_eq_false (by omega : ¬ 0 = P)]
        rfl
      · rw [if_neg hn, decide_eq_false hn, Bool.not_false, Bool.and_true]
    · show (scan w Kind.pulseGen holdEnabledOnly (addW w t0 (n + 1))
        (runTicks w Kind.pulseGen holdEnabledOnly t0 n s0))._Done_Rising_Setup = _
      rw [h6]
      change (!(runTicks w Kind.pulseGen holdEnabledOnly t0 (n + 1) s0)._Done) = _
      rw [hD]
    · show (scan w Kind.pulseGen holdEnabledOnly (addW w t0 (n + 1))
        (runTicks w Kind.pulseGen holdEnabledOnly t0 n s0))._Accumulator = _
      rw [h4, hstep]
      by_cases hn : n % (P + 1) = P
      · rw [if_pos hn, decide_eq_true hn]
        rfl
      · rw [if_neg hn, decide_eq_false hn, Nat.mod_eq_of_lt (by omega)]
        exact Nat.min_eq_left (by omega)

/-- C6 as stated fails: with preset 1 the pulse generator is not done after
the second scan, although 2 is a positive multiple of 1. -/
theorem pulseGen_not_done_every_preset_scans :
    ¬ ((runTicks 32 Kind.pulseGen holdEnabledOnly 0 2 (clearedAt 1 0)).isDone = true ↔
        (0 < 2 ∧ 1 ∣ 2)) := by
  decide

/-- C6, amended: a pulse generator with preset `P ≥ 1`, cleared and with
`_LastMillis` equal to the clock, then scanned with `enable = true` and
`reset = false` while the clock advances one tick per scan, is done after the
`n`-th scan iff `n mod (P + 1) = P`, that is at scans `P`, `2P + 1`,
`3P + 2`, ...: one scan out of every `P + 1`, indefinitely. -/
theorem pulseGen_done_once_per_period (w P t0 n : Nat) (s0 : Multi_Timer) (hP1 : 1 ≤ P)
    (hPw : P < 2 ^ w) (hacc : s0._Accumulator = 0) (hdone : s0._Done = false)
    (hosr : s0._Done_OSR = false) (harm : s0._Done_Rising_Setup = true)
    (hlast : s0._LastMillis = t0) (hpre : s0._Preset = P) :
    (runTicks w Kind.pulseGen holdEnabledOnly t0 n s0).isDone = true ↔ n % (P + 1) = P := by
  obtain ⟨-, -, j3, -, -, -⟩ :=
    pulseGen_runTicks_inv w P t0 s0 hP1 hPw hacc hdone hosr harm hlast hpre n
  unfold Multi_Timer.isDone
  rw [j3]
  exact decide_eq_true_iff

/-- Witness for the amended C6: preset 3, clock at 5, 32-bit words, scan 7. -/
theorem pulseGen_done_once_per_period_witness :
    (runTicks 32 Kind.pulseGen holdEnabledOnly 5 7 (clearedAt 3 5)).isDone = true ↔
      7 % (3 + 1) = 3 :=
  pulseGen_done_once_per_period 32 3 5 7 (clearedAt 3 5) (by decide) (by decide) rfl rfl rfl
    rfl rfl rfl

/-! ## C7, C8: the latched timer -/

/-- C7: `Start(true)` writes `_Control = true` and nothing else, `Start(false)`
changes nothing; and from every state with `_Control = true`, for every clock
value, `update()` returns the same boolean and leaves the same members
(accumulator, done, control, both edge flags, the running flag and all the
others) whether `enable` is true or false: only `_Enable` itself differs. -/
theorem latched_update_ignores_enable (w millis : Nat) (s0 s : Multi_Timer)
    (hc : s._Control = true) :
    LatchedTimer.Start s0 true = { s0 with _Control := true } ∧
    LatchedTimer.Start s0 false = s0 ∧
    (update w Kind.latched millis (s.setEnable false)).1 =
      (update w Kind.latched millis (s.setEnable true)).1 ∧
    (update w Kind.latched millis (s.setEnable false)).2.setEnable true =
      (update w Kind.latched millis (s.setEnable true)).2 := by
  refine ⟨rfl, rfl, ?_, ?_⟩
  · have hk : update w Kind.latched millis = Multi_Timer.update w Kind.latched millis := rfl
    simp only [hk, base_update_fst, base_update_Done]
    simp [reset, LatchedTimer.reset, accumulate_eq, Multi_Timer.setEnable, hc]
  · have hk : update w Kind.latched millis = Multi_Timer.update w Kind.latched millis := rfl
    simp only [hk, Multi_Timer.update, conditionRunning_eq, Multi_Timer.edges, clearIfReset_eq,
      reset, LatchedTimer.reset, accumulate_eq, Multi_Timer.setEnable, hc, Bool.or_true,
      Bool.true_and, if_true]
    simp
    generalize decide (s._Preset ≤ subW w (addW w s._Accumulator millis) s._LastMillis) = d
    cases s._Reset <;> cases s._Done <;> cases d <;> rfl

/-- Witness for C7: a latched timer in zeroed storage started by `Start(true)`. -/
theorem latched_update_ignores_enable_witness :
    (update 32 Kind.latched 7 ((LatchedTimer.Start zeroed true).setEnable false)).1 =
      (update 32 Kind.latched 7 ((LatchedTimer.Start zeroed true).setEnable true)).1 ∧
    (update 32 Kind.latched 7 ((LatchedTimer.Start zeroed true).setEnable false)).2.setEnable
        true =
      (update 32 Kind.latched 7 ((LatchedTimer.Start zeroed true).setEnable true)).2 :=
  (latched_update_ignores_enable 32 7 zeroed (LatchedTimer.Start zeroed true) rfl).2.2

/-- C8: in `update()` of a latched timer the clearing branch is taken exactly
when `_Reset` is true and `_Done` is true after this cycle's accumulation
step; then accumulator, done and control end as `0`, `false`, `false`, and in
every other case they end with the values the accumulation step produced (so
`reset = true` while done is false clears nothing). -/
theorem latched_clears_iff_reset_and_done (w millis : Nat) (s : Multi_Timer) :
    (reset Kind.latched (Multi_Timer.accumulate w millis s)).1 =
      (s._Reset && (Multi_Timer.accumulate w millis s)._Done) ∧
    ((update w Kind.latched millis s).2._Accumulator,
      (update w Kind.latched millis s).2._Done,
      (update w Kind.latched millis s).2._Control) =
      if s._Reset = true ∧ (Multi_Timer.accumulate w millis s)._Done = true then
        (0, false, false)
      else
        ((Multi_Timer.accumulate w millis s)._Accumulator,
          (Multi_Timer.accumulate w millis s)._Done,
          (Multi_Timer.accumulate w millis s)._Control) := by
  have hk : update w Kind.latched millis = Multi_Timer.update w Kind.latched millis := rfl
  have hr : (reset Kind.latched (Multi_Timer.accumulate w millis s)).1 =
      (s._Reset && (Multi_Timer.accumulate w millis s)._Done) := by
    simp only [reset, LatchedTimer.reset, accumulate_eq]
  have hc : (Multi_Timer.accumulate w millis s)._Control = s._Control := by
    simp only [accumulate_eq]
  refine ⟨hr, ?_⟩
  rw [hk, base_update_Accumulator, base_update_Done, base_update_Control, hr, hc]
  by_cases h : s._Reset = true ∧ (Multi_Timer.accumulate w millis s)._Done = true
  · rw [if_pos h, h.1, h.2]
    rfl
  · rw [if_neg h]
    have h2 : (s._Reset && (Multi_Timer.accumulate w millis s)._Done) = false := by
      rw [Bool.and_eq_false_iff]
      by_contra hcon
      push_neg at hcon
      exact h ⟨by simpa using hcon.1, by simpa using hcon.2⟩
    rw [h2]
    rfl

/-! ## C10: `FlasherTimer::isFlashing` -/

/-- C10: for every state `isFlashing()` returns true iff `enable` is true and
`_Accumulator ≤ _OnTime`, and the only member it writes is `_FlashOut`. -/
theorem isFlashing_iff_enabled_within_onTime (s : Multi_Timer) :
    ((FlasherTimer.isFlashing s).1 = true ↔
      (s._Enable = true ∧ s._Accumulator ≤ s._OnTime)) ∧
    (FlasherTimer.isFlashing s).2 =
      { s with _FlashOut := (FlasherTimer.isFlashing s).2._FlashOut } := by
  rw [isFlashing_eq]
  refine ⟨?_, rfl⟩
  rw [Bool.and_eq_true, decide_eq_true_iff]
  exact And.comm

/-! ## C9: the registry list -/

theorem isList_nil (next : Nat → Option Nat) (p : Option Nat) :
    Registry.IsList next p [] ↔ p = none := Iff.rfl

theorem isList_cons (next : Nat → Option Nat) (p : Option Nat) (a : Nat) (l : List Nat) :
    Registry.IsList next p (a :: l) ↔ p = some a ∧ Registry.IsList next (next a) l :=
  Iff.rfl

/-- Only the `next` members of the listed objects matter. -/
theorem isList_congr (next next1 : Nat → Option Nat) :
    ∀ (l : List Nat) (p : Option Nat), (∀ x ∈ l, next1 x = next x) →
      Registry.IsList next p l → Registry.IsList next1 p l
  | [], _, _, h => h
  | a :: l, p, hx, h => by
    rw [isList_cons] at h ⊢
    refine ⟨h.1, ?_⟩
    rw [hx a (List.mem_cons_self a l)]
    exact isList_congr next next1 l (next a) (fun x hxl => hx x (List.mem_cons_of_mem a hxl)) h.2

/-- The constructor's walk ends at the last member, and linking `this` behind
it appends `this` to the list. -/
theorem walkToLast_append (next : Nat → Option Nat) (this : Nat) (hthis : next this = none) :
    ∀ (l : List Nat) (a fuel : Nat), Registry.IsList next (some a) (a :: l) →
      (a :: l).Nodup → this ∉ a :: l → l.length < fuel →
      ∃ z, Registry.walkToLast next fuel a = some z ∧ z ∈ a :: l ∧
        Registry.IsList (Function.update next z (some this)) (some a) (a :: l ++ [this])
  | [], a, fuel, h, _, hnot, hf => by
    obtain ⟨f, rfl⟩ : ∃ f, fuel = f + 1 := ⟨fuel - 1, by omega⟩
    have ha : next a = none := h.2
    have hne : this ≠ a := fun e => hnot (by rw [e]; exact List.mem_singleton.mpr rfl)
    refine ⟨a, ?_, List.mem_singleton.mpr rfl, ?_⟩
    · simp only [Registry.walkToLast, ha]
    · show some a = some a ∧ _ = some this ∧ _ = none
      refine ⟨rfl, Function.update_same _ _ _, ?_⟩
      rw [Function.update_noteq hne]
      exact hthis
  | b :: l, a, fuel, h, hnd, hnot, hf => by
    obtain ⟨f, rfl⟩ : ∃ f, fuel = f + 1 := ⟨fuel - 1, by omega⟩
    have hab : next a = some b := h.2.1
    have hb : Registry.IsList next (some b) (b :: l) := ⟨rfl, h.2.2⟩
    have hnd1 : (b :: l).Nodup := (List.nodup_cons.mp hnd).2
    have hanot : a ∉ b :: l := (List.nodup_cons.mp hnd).1
    have hnot1 : this ∉ b :: l := fun hm => hnot (List.mem_cons_of_mem a hm)
    have hf1 : l.length < f := by
      simp only [List.length_cons] at hf
      omega
    obtain ⟨z, hz, hzmem, hzl⟩ := walkToLast_append next this hthis l b f hb hnd1 hnot1 hf1
    have hza : a ≠ z := fun e => hanot (by rw [e]; exact hzmem)
    refine ⟨z, ?_, List.mem_cons_of_mem a hzmem, ?_⟩
    · simp only [Registry.walkToLast, hab]
      exact hz
    · show some a = some a ∧ Registry.IsList _ _ (b :: l ++ [this])
      refine ⟨rfl, ?_⟩
      rw [Function.update_noteq hza, hab]
      exact hzl

/-- The destructor's walk finds the predecessor of `this`, and giving it
`this->next` erases `this` from the list. -/
theorem walkToPred_erase (next : Nat → Option Nat) (this : Nat) :
    ∀ (l : List Nat) (a fuel : Nat), Registry.IsList next (some a) (a :: l) →
      (a :: l).Nodup → a ≠ this → this ∈ l → l.length ≤ fuel →
      ∃ p, Registry.walkToPred next this fuel (some a) = some p ∧ p ∈ a :: l ∧
        Registry.IsList (Function.update next p (next this)) (some a) (a :: l.erase this)
  | [], _, _, _, _, _, hmem, _ => absurd hmem (List.not_mem_nil this)
  | b :: l, a, fuel, h, hnd, hne, hmem, hf => by
    obtain ⟨f, rfl⟩ : ∃ f, fuel = f + 1 := ⟨fuel - 1, by
      simp only [List.length_cons] at hf
      omega⟩
    have hab : next a = some b := h.2.1
    have hnd1 : (b :: l).Nodup := (List.nodup_cons.mp hnd).2
    have hanot : a ∉ b :: l := (List.nodup_cons.mp hnd).1
    by_cases hbt : b = this
    · subst hbt
      refine ⟨a, ?_, List.mem_cons_self a _, ?_⟩
      · simp only [Registry.walkToPred, hab, if_true]
      · rw [List.erase_cons_head]
        show some a = some a ∧ Registry.IsList _ _ l
        refine ⟨rfl, ?_⟩
        rw [Function.update_same]
        refine isList_congr next _ l (next b) (fun x hx => ?_) h.2.2
        exact Function.update_noteq (fun e => hanot (by rw [← e]; exact List.mem_cons_of_mem b hx))
          _ _
    · have hb : Registry.IsList next (some b) (b :: l) := ⟨rfl, h.2.2⟩
      have hmem1 : this ∈ l := by
        rcases List.mem_cons.mp hmem with e | e
        · exact absurd e.symm hbt
        · exact e
      have hf1 : l.length ≤ f := by
        simp only [List.length_cons] at hf
        omega
      obtain ⟨p, hp, hpmem, hpl⟩ := walkToPred_erase next this l b f hb hnd1 hbt hmem1 hf1
      have hpa : a ≠ p := fun e => hanot (by rw [e]; exact hpmem)
      have hsome : ¬ (some b = some this) := fun e => hbt (Option.some.inj e)
      refine ⟨p, ?_, List.mem_cons_of_mem a hpmem, ?_⟩
      · simp only [Registry.walkToPred, hab, hsome, if_false]
        exact hp
      · rw [List.erase_cons_tail (by simpa using hbt)]
        show some a = some a ∧ Registry.IsList _ _ (b :: l.erase this)
        refine ⟨rfl, ?_⟩
        rw [Function.update_noteq hpa, hab]
        exact hpl

/-- The constructor appends the new object to the list. -/
theorem construct_appends (fuel : Nat) (r : Registry) (this : Nat) (l : List Nat)
    (h : Registry.IsList r.next r.first l) (hnd : l.Nodup) (hnot : this ∉ l)
    (hf : l.length ≤ fuel) :
    ∃ r1, Registry.construct fuel r this = some r1 ∧
      Registry.IsList r1.next r1.first (l ++ [this]) := by
  have hthis : Function.update r.next this none this = none := Function.update_same _ _ _
  have h0 : Registry.IsList (Function.update r.next this none) r.first l :=
    isList_congr r.next _ l r.first
      (fun x hx => Function.update_noteq (fun e => hnot (by rw [← e]; exact hx)) _ _) h
  cases l with
  | nil =>
    have hfirst : r.first = none := h
    refine ⟨{ first := some this, next := Function.update r.next this none }, ?_, ?_⟩
    · simp only [Registry.construct, hfirst]
    · exact ⟨rfl, hthis⟩
  | cons a l =>
    have hfirst : r.first = some a := h.1
    rw [hfirst] at h0
    obtain ⟨z, hz, -, hzl⟩ :=
      walkToLast_append (Function.update r.next this none) this hthis l a fuel h0 hnd hnot
        (by simpa using hf)
    refine ⟨{ first := some a,
              next := Function.update (Function.update r.next this none) z (some this) },
      ?_, hzl⟩
    simp only [Registry.construct, hfirst, hz]

/-- The destructor erases the object from the list. -/
theorem destruct_erases (fuel : Nat) (r : Registry) (this : Nat) (l : List Nat)
    (h : Registry.IsList r.next r.first l) (hnd : l.Nodup) (hmem : this ∈ l)
    (hf : l.length ≤ fuel) :
    ∃ r1, Registry.destruct fuel r this = some r1 ∧
      Registry.IsList r1.next r1.first (l.erase this) := by
  cases l with
  | nil => exact absurd hmem (List.not_mem_nil this)
  | cons a l =>
    have hfirst : r.first = some a := h.1
    by_cases hat : a = this
    · subst hat
      refine ⟨{ r with first := r.next a }, ?_, ?_⟩
      · simp only [Registry.destruct, hfirst, if_true]
      · rw [List.erase_cons_head]
        exact h.2
    · have hmem1 : this ∈ l := by
        rcases List.mem_cons.mp hmem with e | e
        · exact absurd e.symm hat
        · exact e
      have h1 : Registry.IsList r.next (some a) (a :: l) := ⟨rfl, h.2⟩
      obtain ⟨p, hp, -, hpl⟩ :=
        walkToPred_erase r.next this l a fuel h1 hnd hat hmem1
          (by simp only [List.length_cons] at hf; omega)
      have hne : ¬ (some a = some this) := fun e => hat (Option.some.inj e)
      refine ⟨{ r with next := Function.update r.next p (r.next this) }, ?_, ?_⟩
      · simp only [Registry.destruct, hfirst, hne, if_false, hp]
      · rw [List.erase_cons_tail (by simpa using hat)]
        show Registry.IsList _ r.first _
        rw [hfirst]
        exact hpl

/-- The loop of `updateAllTimers` calls `update()` on the members of the
list, head first, once each. -/
theorem visit_list {σ : Type} (call : Nat → σ → σ) (next : Nat → Option Nat) :
    ∀ (l : List Nat) (p : Option Nat) (fuel : Nat) (world : σ),
      Registry.IsList next p l → l.length ≤ fuel →
      Registry.visit call next fuel p world = some (l.foldl (fun wd x => call x wd) world)
  | [], p, fuel, world, h, _ => by
    have hp : p = none := h
    subst hp
    cases fuel <;> rfl
  | a :: l, p, fuel, world, h, hf => by
    obtain ⟨f, rfl⟩ : ∃ f, fuel = f + 1 := ⟨fuel - 1, by
      simp only [List.length_cons] at hf
      omega⟩
    have hp : p = some a := h.1
    subst hp
    have hf1 : l.length ≤ f := by
      simp only [List.length_cons] at hf
      omega
    simp only [Registry.visit, List.foldl_cons]
    exact visit_list call next l (next a) f (call a world) h.2 hf1

/-- Constructors and destructors in any legal order keep the pointer graph in
step with the list of live timers. -/
theorem run_tracks_live (fuel : Nat) :
    ∀ (ops : List Op) (r : Registry) (l : List Nat), Registry.IsList r.next r.first l →
      l.Nodup → legalFrom ops l = true → l.length + ops.length ≤ fuel →
      ∃ r1, Registry.run fuel ops r = some r1 ∧
        Registry.IsList r1.next r1.first (liveAfter ops l) ∧ (liveAfter ops l).Nodup
  | [], r, l, h, hnd, _, _ => ⟨r, rfl, h, hnd⟩
  | .create a :: ops, r, l, h, hnd, hleg, hf => by
    simp only [legalFrom, Bool.and_eq_true, Bool.not_eq_true', List.length_cons] at hleg hf
    have hnot : a ∉ l := by
      intro hm
      have := List.elem_iff.mpr hm
      rw [List.contains, this] at hleg
      exact Bool.noConfusion hleg.1
    obtain ⟨r1, hr1, hl1⟩ := construct_appends fuel r a l h hnd hnot (by omega)
    have hnd1 : (l ++ [a]).Nodup := by
      rw [List.nodup_append]
      refine ⟨hnd, List.nodup_singleton a, ?_⟩
      intro x hx hxa
      rw [List.mem_singleton] at hxa
      exact hnot (hxa ▸ hx)
    obtain ⟨r2, hr2, hl2, hnd2⟩ :=
      run_tracks_live fuel ops r1 (l ++ [a]) hl1 hnd1 hleg.2 (by
        rw [List.length_append, List.length_singleton]
        omega)
    exact ⟨r2, by simp only [Registry.run, hr1, hr2], hl2, hnd2⟩
  | .destroy a :: ops, r, l, h, hnd, hleg, hf => by
    simp only [legalFrom, Bool.and_eq_true, List.length_cons] at hleg hf
    have hmem : a ∈ l := List.elem_iff.mp hleg.1
    obtain ⟨r1, hr1, hl1⟩ := destruct_erases fuel r a l h hnd hmem (by omega)
    obtain ⟨r2, hr2, hl2, hnd2⟩ :=
      run_tracks_live fuel ops r1 (l.erase a) hl1 (hnd.erase a) hleg.2 (by
        have := List.length_erase_le a l
        omega)
    exact ⟨r2, by simp only [Registry.run, hr1, hr2], hl2, hnd2⟩

/-- C9: starting from an empty registry (`first == nullptr`), after any
sequence of constructions at fresh addresses and destructions of live timers,
every constructor and destructor returns, the list from `first` along `next`
holds exactly the live timers in order of creation, each once, `first` is the
oldest live timer, and `updateAllTimers()` calls `update()` once on each live
timer in creation order and on nothing else. -/
theorem registry_holds_live_timers_in_creation_order {σ : Type} (fuel : Nat) (ops : List Op)
    (next0 : Nat → Option Nat) (call : Nat → σ → σ) (world : σ)
    (hlegal : legalFrom ops [] = true) (hfuel : ops.length ≤ fuel) :
    ∃ r, Registry.run fuel ops { first := none, next := next0 } = some r ∧
      Registry.IsList r.next r.first (liveAfter ops []) ∧
      (liveAfter ops []).Nodup ∧
      r.first = (liveAfter ops []).head? ∧
      Registry.updateAllTimers call fuel r world =
        some ((liveAfter ops []).foldl (fun wd x => call x wd) world) ∧
      Registry.updateAllTimers (fun x trace => trace ++ [x]) fuel r [] =
        some (liveAfter ops []) := by
  obtain ⟨r, hr, hl, hnd⟩ :=
    run_tracks_live fuel ops { first := none, next := next0 } [] rfl List.nodup_nil hlegal
      (by simpa using hfuel)
  have hlen : (liveAfter ops []).length ≤ fuel := by
    have key : ∀ (os : List Op) (l : List Nat),
        (liveAfter os l).length ≤ l.length + os.length := by
      intro os
      induction os with
      | nil => intro l; exact Nat.le_refl _
      | cons o os ih =>
        intro l
        cases o with
        | create a =>
          have := ih (l ++ [a])
          simp only [List.length_append, List.length_singleton, List.length_cons,
            List.length_nil] at this ⊢
          simp only [liveAfter]
          omega
        | destroy a =>
          have := ih (l.erase a)
          have := List.length_erase_le a l
          simp only [List.length_cons] at *
          simp only [liveAfter]
          omega
    have := key ops []
    simp only [List.length_nil, Nat.zero_add] at this
    omega
  refine ⟨r, hr, hl, hnd, ?_, ?_, ?_⟩
  · cases hlive : liveAfter ops [] with
    | nil =>
      rw [hlive] at hl
      exact hl
    | cons a l =>
      rw [hlive] at hl
      exact hl.1
  · exact visit_list call r.next _ r.first fuel world hl hlen
  · have h1 := visit_list (fun x (trace : List Nat) => trace ++ [x]) r.next _ r.first fuel []
      hl hlen
    have h2 : ∀ (l acc : List Nat),
        l.foldl (fun (trace : List Nat) x => trace ++ [x]) acc = acc ++ l := by
      intro l
      induction l with
      | nil => intro acc; simp
      | cons a l ih => intro acc; simp [ih]
    rw [h2, List.nil_append] at h1
    exact h1

/-- Witness for C9: create T1, T2, T3 at addresses 1, 2, 3, then destroy T2;
the live list is `[1, 3]`. -/
theorem registry_holds_live_timers_in_creation_order_witness :
    (legalFrom [Op.create 1, Op.create 2, Op.create 3, Op.destroy 2] [] = true ∧
      liveAfter [Op.create 1, Op.create 2, Op.create 3, Op.destroy 2] [] = [1, 3]) ∧
    ∃ r, Registry.run 4 [Op.create 1, Op.create 2, Op.create 3, Op.destroy 2]
        { first := none, next := fun _ => none } = some r ∧
      Registry.IsList r.next r.first
        (liveAfter [Op.create 1, Op.create 2, Op.create 3, Op.destroy 2] []) ∧
      (liveAfter [Op.create 1, Op.create 2, Op.create 3, Op.destroy 2] []).Nodup ∧
      r.first = (liveAfter [Op.create 1, Op.create 2, Op.create 3, Op.destroy 2] []).head? ∧
      Registry.updateAllTimers (fun x trace => trace ++ [x]) 4 r [] =
        some ((liveAfter [Op.create 1, Op.create 2, Op.create 3, Op.destroy 2] []).foldl
          (fun wd x => (fun x trace => trace ++ [x]) x wd) []) ∧
      Registry.updateAllTimers (fun x trace => trace ++ [x]) 4 r [] =
        some (liveAfter [Op.create 1, Op.create 2, Op.create 3, Op.destroy 2] []) :=
  ⟨⟨by decide, by decide⟩,
    @registry_holds_live_timers_in_creation_order (List Nat) 4
      [Op.create 1, Op.create 2, Op.create 3, Op.destroy 2] (fun _ => none)
      (fun x trace => trace ++ [x]) [] (by decide) (by decide)⟩

/-! ## C11: `FlasherTimer::setOnTime` and the forced clear -/

/-- One `update()` of a flasher whose `enable` is true. -/
theorem flasher_update_enabled (w millis : Nat) (s : Multi_Timer) (hen : s._Enable = true) :
    (update w Kind.flasher millis s).2._Done =
      (!s._Done_OSR && (s._Done ||
        decide (s._Preset ≤ subW w (addW w s._Accumulator millis) s._LastMillis))) ∧
    (update w Kind.flasher millis s).2._Accumulator =
      (if s._Done_OSR then 0
       else min (subW w (addW w s._Accumulator millis) s._LastMillis) s._Preset) ∧
    (update w Kind.flasher millis s).2._Done_OSR =
      ((update w Kind.flasher millis s).2._Done && s._Done_Rising_Setup) ∧
    (update w Kind.flasher millis s).2._Done_Rising_Setup =
      !(update w Kind.flasher millis s).2._Done ∧
    (update w Kind.flasher millis s).2._Enable = true ∧
    (update w Kind.flasher millis s).2._Preset = s._Preset ∧
    (update w Kind.flasher millis s).2._LastMillis = millis := by
  have hk : update w Kind.flasher millis = Multi_Timer.update w Kind.flasher millis := rfl
  simp only [hk, base_update_Preset, base_update_LastMillis, base_update_Done,
    base_update_Accumulator, base_update_Done_OSR, base_update_Done_Rising_Setup,
    base_update_Enable]
  simp [reset, FlasherTimer.reset, accumulate_eq, hen]

/-- C11 as stated fails: a flasher with preset 2, scanned twice with `enable`
held true, has just become done (`doneRoseEdge` true); after `setOnTime(1)`
the next `update()` (one tick later, no overflow) leaves done false. -/
theorem flasher_setOnTime_next_update_not_done :
    (runTicks 32 Kind.flasher holdEnabledOnly 0 2 (clearedAt 2 0))._Done_OSR = true ∧
    ¬ ((update 32 Kind.flasher 3
        (FlasherTimer.setOnTime
          (runTicks 32 Kind.flasher holdEnabledOnly 0 2 (clearedAt 2 0)) 1)).2.isDone
      = true) := by
  decide

/-- C11, amended: let `s` be left by an `update()` of a flasher with `enable`
true. `setOnTime(x)` sets `_OnTime = x` and `_Accumulator = _Preset`. With
`enable` still true and the elapsed ticks `d1` not overflowing the
accumulator: if done was false in `s`, the next `update()` leaves done true
and the `update()` after it clears the timer; if `doneRoseEdge` was true in
`s`, the next `update()` already clears the timer. -/
theorem flasher_setOnTime_forces_clear (w t0 x d1 t2 : Nat) (s0 s s1 s2 : Multi_Timer)
    (hs : s = (update w Kind.flasher t0 (s0.setEnable true)).2)
    (h1 : s1 = (update w Kind.flasher (addW w t0 d1) (FlasherTimer.setOnTime s x)).2)
    (h2 : s2 = (update w Kind.flasher t2 s1).2)
    (hov : s._Preset + d1 < 2 ^ w) :
    (FlasherTimer.setOnTime s x)._OnTime = x ∧
    (FlasherTimer.setOnTime s x)._Accumulator = s._Preset ∧
    (s._Done = false → s1._Done = true ∧ s2._Accumulator = 0 ∧ s2._Done = false) ∧
    (s._Done_OSR = true → s1._Accumulator = 0 ∧ s1._Done = false) := by
  obtain ⟨-, -, a3, a4, a5, -, a7⟩ :=
    flasher_update_enabled w t0 (s0.setEnable true) rfl
  rw [← hs] at a3 a4 a5 a7
  have hen : (FlasherTimer.setOnTime s x)._Enable = true := a5
  obtain ⟨b1, b2, b3, -, b5, -, -⟩ :=
    flasher_update_enabled w (addW w t0 d1) (FlasherTimer.setOnTime s x) hen
  rw [← h1] at b1 b2 b3 b5
  obtain ⟨c1, c2, -, -, -, -, -⟩ := flasher_update_enabled w t2 s1 b5
  rw [← h2] at c1 c2
  have hV : subW w (addW w (FlasherTimer.setOnTime s x)._Accumulator (addW w t0 d1))
      (FlasherTimer.setOnTime s x)._LastMillis = s._Preset + d1 := by
    have e := subW_addW_tick w (FlasherTimer.setOnTime s x)._Accumulator t0
      (FlasherTimer.setOnTime s x)._LastMillis d1 (by
        show s._LastMillis % 2 ^ w = _
        rw [a7])
    rw [show addW w t0 d1 = (t0 + d1) % 2 ^ w from rfl, e]
    exact Nat.mod_eq_of_lt hov
  rw [hV] at b1 b2
  have hosr : (FlasherTimer.setOnTime s x)._Done_OSR = s._Done_OSR := rfl
  have hdone : (FlasherTimer.setOnTime s x)._Done = s._Done := rfl
  have hrs : (FlasherTimer.setOnTime s x)._Done_Rising_Setup = s._Done_Rising_Setup := rfl
  have hpre : (FlasherTimer.setOnTime s x)._Preset = s._Preset := rfl
  rw [hosr, hdone, hpre] at b1
  rw [hosr, hpre] at b2
  rw [hrs] at b3
  refine ⟨rfl, rfl, ?_, ?_⟩
  · intro hd
    have hosr0 : s._Done_OSR = false := by
      rw [a3, hd]
      rfl
    have hd1 : s1._Done = true := by
      rw [b1, hosr0, hd, decide_eq_true (Nat.le_add_right _ _)]
      rfl
    have hosr1 : s1._Done_OSR = true := by
      rw [b3, hd1, a4, hd]
      rfl
    refine ⟨hd1, ?_, ?_⟩
    · rw [c2, hosr1]
      rfl
    · rw [c1, hosr1]
      rfl
  · intro ho
    refine ⟨?_, ?_⟩
    · rw [b2, ho]
      rfl
    · rw [b1, ho]
      rfl

/-- Witness for the amended C11: preset 5, one scan at clock 1, `setOnTime(2)`,
then updates at clocks 2 and 3 with 32-bit words. -/
theorem flasher_setOnTime_forces_clear_witness :
    (FlasherTimer.setOnTime (update 32 Kind.flasher 1 ((clearedAt 5 0).setEnable true)).2
      2)._OnTime = 2 ∧
    (FlasherTimer.setOnTime (update 32 Kind.flasher 1 ((clearedAt 5 0).setEnable true)).2
      2)._Accumulator = (update 32 Kind.flasher 1 ((clearedAt 5 0).setEnable true)).2._Preset ∧
    ((update 32 Kind.flasher 1 ((clearedAt 5 0).setEnable true)).2._Done = false →
      (update 32 Kind.flasher (addW 32 1 1) (FlasherTimer.setOnTime
        (update 32 Kind.flasher 1 ((clearedAt 5 0).setEnable true)).2 2)).2._Done = true ∧
      (update 32 Kind.flasher 3 (update 32 Kind.flasher (addW 32 1 1) (FlasherTimer.setOnTime
        (update 32 Kind.flasher 1 ((clearedAt 5 0).setEnable true)).2 2)).2).2._Accumulator
        = 0 ∧
      (update 32 Kind.flasher 3 (update 32 Kind.flasher (addW 32 1 1) (FlasherTimer.setOnTime
        (update 32 Kind.flasher 1 ((clearedAt 5 0).setEnable true)).2 2)).2).2._Done
        = false) ∧
    ((update 32 Kind.flasher 1 ((clearedAt 5 0).setEnable true)).2._Done_OSR = true →
      (update 32 Kind.flasher (addW 32 1 1) (FlasherTimer.setOnTime
        (update 32 Kind.flasher 1 ((clearedAt 5 0).setEnable true)).2 2)).2._Accumulator = 0 ∧
      (update 32 Kind.flasher (addW 32 1 1) (FlasherTimer.setOnTime
        (update 32 Kind.flasher 1 ((clearedAt 5 0).setEnable true)).2 2)).2._Done = false) :=
  flasher_setOnTime_forces_clear 32 1 2 1 3 (clearedAt 5 0) _ _ _ rfl rfl rfl (by decide)

/-! ## C12: the off-delay timer under a clock of one tick per scan -/

/-- One scan of an off-delay timer whose driver holds `enable` false. -/
theorem offDelay_scan (w millis : Nat) (s : Multi_Timer) :
    (scan w Kind.offDelay holdDisabled millis s)._Preset = s._Preset ∧
    (scan w Kind.offDelay holdDisabled millis s)._LastMillis = millis ∧
    (scan w Kind.offDelay holdDisabled millis s)._Done =
      (s._Done && !decide (s._Preset ≤ subW w (addW w s._Accumulator millis) s._LastMillis)) ∧
    (scan w Kind.offDelay holdDisabled millis s)._Accumulator =
      min (subW w (addW w s._Accumulator millis) s._LastMillis) s._Preset ∧
    (scan w Kind.offDelay holdDisabled millis s)._Done_OSF =
      (!(scan w Kind.offDelay holdDisabled millis s)._Done && s._Done_Falling_Setup) ∧
    (scan w Kind.offDelay holdDisabled millis s)._Done_Falling_Setup =
      (scan w Kind.offDelay holdDisabled millis s)._Done := by
  have hk : update w Kind.offDelay millis = OffDelayTimer.update w millis := rfl
  simp only [scan, hk, offDelay_update_Preset, offDelay_update_LastMillis,
    offDelay_update_Done, offDelay_update_Accumulator, offDelay_update_Done_OSF,
    offDelay_update_Done_Falling_Setup]
  simp [holdDisabled, applyCalls, Call.apply, Multi_Timer.setEnable, Multi_Timer.setReset,
    offDelay_accumulate_eq]

/-- What the off-delay timer holds after `n` scans with `enable` false. -/
theorem offDelay_runTicks_inv (w P t0 : Nat) (s0 : Multi_Timer) (hP1 : 1 ≤ P)
    (hPw : P < 2 ^ w) (hacc : s0._Accumulator = 0) (hdone : s0._Done = true)
    (harm : s0._Done_Falling_Setup = true) (hlast : s0._LastMillis = t0)
    (hpre : s0._Preset = P) (n : Nat) :
    (runTicks w Kind.offDelay holdDisabled t0 n s0)._Preset = P ∧
    (runTicks w Kind.offDelay holdDisabled t0 n s0)._LastMillis % 2 ^ w = (t0 + n) % 2 ^ w ∧
    (runTicks w Kind.offDelay holdDisabled t0 n s0)._Done = decide (n < P) ∧
    (runTicks w Kind.offDelay holdDisabled t0 n s0)._Done_Falling_Setup = decide (n < P) ∧
    (n < P → (runTicks w Kind.offDelay holdDisabled t0 n s0)._Accumulator = n) := by
  induction n with
  | zero =>
    refine ⟨hpre, by rw [← hlast]; rfl, ?_, ?_, fun _ => hacc⟩
    · simp only [runTicks, hdone]
      exact (decide_eq_true (by omega)).symm
    · simp only [runTicks, harm]
      exact (decide_eq_true (by omega)).symm
  | succ n ih =>
    obtain ⟨i1, i2, i3, -, i5⟩ := ih
    obtain ⟨h1, h2, h3, h4, -, h6⟩ :=
      offDelay_scan w (addW w t0 (n + 1)) (runTicks w Kind.offDelay holdDisabled t0 n s0)
    have hV : subW w (addW w (runTicks w Kind.offDelay holdDisabled t0 n s0)._Accumulator
          (addW w t0 (n + 1))) (runTicks w Kind.offDelay holdDisabled t0 n s0)._LastMillis
        = ((runTicks w Kind.offDelay holdDisabled t0 n s0)._Accumulator + 1) % 2 ^ w :=
      subW_addW_tick w _ (t0 + n) _ 1 i2
    rw [hV, i1, i3] at h3
    rw [hV, i1] at h4
    have hD : (runTicks w Kind.offDelay holdDisabled t0 (n + 1) s0)._Done
        = decide (n + 1 < P) := by
      show (scan w Kind.offDelay holdDisabled (addW w t0 (n + 1))
        (runTicks w Kind.offDelay holdDisabled t0 n s0))._Done = _
      rw [h3]
      by_cases hn : n < P
      · rw [i5 hn, Nat.mod_eq_of_lt (by omega), decide_eq_true hn, Bool.true_and]
        by_cases hn1 : n + 1 < P
        · rw [decide_eq_false (by omega : ¬ P ≤ n + 1), decide_eq_true hn1]
          rfl
        · rw [decide_eq_true (by omega : P ≤ n + 1), decide_eq_false hn1]
          rfl
      · rw [decide_eq_false hn, decide_eq_false (by omega : ¬ n + 1 < P)]
        rfl
    refine ⟨h1.trans i1, ?_, hD, ?_, ?_⟩
    · show (scan w Kind.offDelay holdDisabled (addW w t0 (n + 1))
        (runTicks w Kind.offDelay holdDisabled t0 n s0))._LastMillis % 2 ^ w = _
      rw [h2]
      exact Nat.mod_mod _ _
    · show (scan w Kind.offDelay holdDisabled (addW w t0 (n + 1))
        (runTicks w Kind.offDelay holdDisabled t0 n s0))._Done_Falling_Setup = _
      rw [h6]
      exact hD
    · intro hn
      show (scan w Kind.offDelay holdDisabled (addW w t0 (n + 1))
        (runTicks w Kind.offDelay holdDisabled t0 n s0))._Accumulator = _
      rw [h4, i5 (by omega), Nat.mod_eq_of_lt (by omega)]
      exact Nat.min_eq_left (by omega)

/-- C12: an off-delay timer with preset `P ≥ 1` in the state left by an
update with `enable = true` (done true, accumulator 0, falling latch armed,
`_LastMillis` equal to the clock), then scanned with `enable = false`,
`reset = false` while the clock advances one tick per scan: after the `n`-th
scan (`n ≥ 1`) `isDone()` holds iff `n < P` and `getDoneFell()` holds iff
`n = P`. -/
theorem offDelay_done_until_preset (w P t0 n : Nat) (s0 : Multi_Timer) (hP1 : 1 ≤ P)
    (hPw : P < 2 ^ w) (hacc : s0._Accumulator = 0) (hdone : s0._Done = true)
    (harm : s0._Done_Falling_Setup = true) (hlast : s0._LastMillis = t0)
    (hpre : s0._Preset = P) (hn : 1 ≤ n) :
    ((runTicks w Kind.offDelay holdDisabled t0 n s0).isDone = true ↔ n < P) ∧
    ((runTicks w Kind.offDelay holdDisabled t0 n s0).getDoneFell = true ↔ n = P) := by
  obtain ⟨m, rfl⟩ : ∃ m, n = m + 1 := ⟨n - 1, by omega⟩
  obtain ⟨-, -, j3, -, -⟩ :=
    offDelay_runTicks_inv w P t0 s0 hP1 hPw hacc hdone harm hlast hpre (m + 1)
  obtain ⟨-, -, -, i4, -⟩ :=
    offDelay_runTicks_inv w P t0 s0 hP1 hPw hacc hdone harm hlast hpre m
  obtain ⟨-, -, -, -, h5, -⟩ :=
    offDelay_scan w (addW w t0 (m + 1)) (runTicks w Kind.offDelay holdDisabled t0 m s0)
  refine ⟨?_, ?_⟩
  · unfold Multi_Timer.isDone
    rw [j3]
    exact decide_eq_true_iff
  · unfold Multi_Timer.getDoneFell
    show (scan w Kind.offDelay holdDisabled (addW w t0 (m + 1))
        (runTicks w Kind.offDelay holdDisabled t0 m s0))._Done_OSF = true ↔ _
    rw [h5, i4]
    change ((!(runTicks w Kind.offDelay holdDisabled t0 (m + 1) s0)._Done) &&
      decide (m < P)) = true ↔ _
    rw [j3, Bool.and_eq_true, Bool.not_eq_true', decide_eq_false_iff_not, decide_eq_true_iff]
    omega

/-- Witness for C12: preset 3; the start state is the one an `update()` at
clock 5 with `enable = true` leaves; third scan, 32-bit words. -/
theorem offDelay_done_until_preset_witness :
    ((runTicks 32 Kind.offDelay holdDisabled 5 3
        (update 32 Kind.offDelay 5
          ((Multi_Timer.construct1 zeroed 3).setEnable true)).2).isDone = true ↔ 3 < 3) ∧
    ((runTicks 32 Kind.offDelay holdDisabled 5 3
        (update 32 Kind.offDelay 5
          ((Multi_Timer.construct1 zeroed 3).setEnable true)).2).getDoneFell = true ↔ 3 = 3) :=
  offDelay_done_until_preset 32 3 5 3
    (update 32 Kind.offDelay 5 ((Multi_Timer.construct1 zeroed 3).setEnable true)).2
    (by decide) (by decide) rfl rfl rfl rfl rfl (by decide)

/-! ## C13: a flasher with `_OnTime = 0` -/

/-- C13 as stated fails: a flasher with preset 2 and `_OnTime = 0`, scanned
three times with `enable` held true, has just been cleared (accumulator 0)
and `isFlashing()` returns true. -/
theorem flasher_zero_onTime_flashes_after_clear :
    (runTicks 32 Kind.flasher holdEnabledOnly 0 3 (clearedAt 2 0))._OnTime = 0 ∧
    ¬ ((FlasherTimer.isFlashing
        (runTicks 32 Kind.flasher holdEnabledOnly 0 3 (clearedAt 2 0))).1 = false) := by
  decide

/-- C13, amended: with `_OnTime = 0`, `isFlashing()` returns true exactly when
`enable` is true and the accumulator is 0; so it returns false for every
accumulator value `≥ 1` and whenever `enable` is false. -/
theorem flasher_zero_onTime_flashes_only_at_zero (s : Multi_Timer) (h0 : s._OnTime = 0) :
    ((FlasherTimer.isFlashing s).1 = true ↔ (s._Enable = true ∧ s._Accumulator = 0)) ∧
    (1 ≤ s._Accumulator → (FlasherTimer.isFlashing s).1 = false) ∧
    (s._Enable = false → (FlasherTimer.isFlashing s).1 = false) := by
  have key : (FlasherTimer.isFlashing s).1 = true ↔
      (s._Enable = true ∧ s._Accumulator = 0) := by
    rw [isFlashing_eq]
    show (decide (s._Accumulator ≤ s._OnTime) && s._Enable) = true ↔ _
    rw [h0, Bool.and_eq_true, decide_eq_true_iff, Nat.le_zero]
    exact And.comm
  refine ⟨key, ?_, ?_⟩
  · intro h1
    rw [← Bool.not_eq_true, key]
    intro h
    omega
  · intro he
    rw [← Bool.not_eq_true, key]
    intro h
    rw [he] at h
    exact Bool.noConfusion h.1

/-- Witness for the amended C13: a flasher constructed with `onTime = 0`. -/
theorem flasher_zero_onTime_flashes_only_at_zero_witness :
    ((FlasherTimer.isFlashing (Multi_Timer.construct zeroed 5 0)).1 = true ↔
      ((Multi_Timer.construct zeroed 5 0)._Enable = true ∧
        (Multi_Timer.construct zeroed 5 0)._Accumulator = 0)) ∧
    (1 ≤ (Multi_Timer.construct zeroed 5 0)._Accumulator →
      (FlasherTimer.isFlashing (Multi_Timer.construct zeroed 5 0)).1 = false) ∧
    ((Multi_Timer.construct zeroed 5 0)._Enable = false →
      (FlasherTimer.isFlashing (Multi_Timer.construct zeroed 5 0)).1 = false) :=
  flasher_zero_onTime_flashes_only_at_zero (Multi_Timer.construct zeroed 5 0) rfl

/-! ## C14, C15: elapsed ticks, wraparound and the overflowing sum -/

/-- The sum formed by an accumulating update, when the true sum fits a word. -/
theorem elapsed_sum (w d : Nat) (s : Multi_Timer) (hsum : s._Accumulator + d < 2 ^ w) :
    subW w (addW w s._Accumulator (addW w s._LastMillis d)) s._LastMillis
      = s._Accumulator + d := by
  have e := subW_addW_tick w s._Accumulator s._LastMillis s._LastMillis d rfl
  rw [show addW w s._LastMillis d = (s._LastMillis + d) % 2 ^ w from rfl, e]
  exact Nat.mod_eq_of_lt hsum

/-- The base accumulation step, when the true sum fits a word. -/
theorem accumulate_no_overflow (w d : Nat) (s : Multi_Timer)
    (hrun : (s._Enable || s._Control) = true) (hsum : s._Accumulator + d < 2 ^ w) :
    (Multi_Timer.accumulate w (addW w s._LastMillis d) s)._Accumulator
      = min (s._Accumulator + d) s._Preset ∧
    (Multi_Timer.accumulate w (addW w s._LastMillis d) s)._Done
      = (s._Done || decide (s._Preset ≤ s._Accumulator + d)) := by
  simp only [accumulate_eq, hrun, if_true, Bool.true_and, elapsed_sum w d s hsum, and_self]

/-- The off-delay accumulation step, when the true sum fits a word. -/
theorem offDelay_accumulate_no_overflow (w d : Nat) (s : Multi_Timer)
    (hen : s._Enable = false) (hsum : s._Accumulator + d < 2 ^ w) :
    (OffDelayTimer.accumulate w (addW w s._LastMillis d) s)._Accumulator
      = min (s._Accumulator + d) s._Preset := by
  simp only [offDelay_accumulate_eq, hen, Bool.not_false, if_true, elapsed_sum w d s hsum]

/-- C14: for every `_LastMillis`, every elapsed tick count `d` with sampled
clock `(_LastMillis + d) mod 2 ^ w` (also when the counter wrapped) and every
accumulator with `_Accumulator + d < 2 ^ w`, the sum formed by an accumulating
update is exactly `_Accumulator + d`; the base update (enable or control true)
and the off-delay update (enable false) leave `min (_Accumulator + d) _Preset`
when they do not clear, and `_LastMillis` becomes the sampled clock. -/
theorem update_adds_elapsed_ticks_across_wrap (w d : Nat) (k : Kind) (s : Multi_Timer)
    (hsum : s._Accumulator + d < 2 ^ w) :
    subW w (addW w s._Accumulator (addW w s._LastMillis d)) s._LastMillis
      = s._Accumulator + d ∧
    (k ≠ Kind.offDelay → (s._Enable || s._Control) = true →
      (reset k (Multi_Timer.accumulate w (addW w s._LastMillis d) s)).1 = false →
      (update w k (addW w s._LastMillis d) s).2._Accumulator
        = min (s._Accumulator + d) s._Preset) ∧
    (s._Enable = false → s._Reset = false →
      (update w Kind.offDelay (addW w s._LastMillis d) s).2._Accumulator
        = min (s._Accumulator + d) s._Preset) ∧
    (update w k (addW w s._LastMillis d) s).2._LastMillis = addW w s._LastMillis d := by
  refine ⟨elapsed_sum w d s hsum, ?_, ?_, ?_⟩
  · intro hk hrun hnr
    rw [update_eq, if_neg hk, base_update_Accumulator, hnr]
    exact (accumulate_no_overflow w d s hrun hsum).1
  · intro hen hr
    rw [update_eq, if_pos rfl, offDelay_update_Accumulator, hen, hr]
    exact offDelay_accumulate_no_overflow w d s hen hsum
  · rw [update_eq]
    split_ifs
    · exact offDelay_update_LastMillis w _ s
    · exact base_update_LastMillis w k _ s

/-- Witness for C14: the 32-bit clock wraps from `2 ^ 32 - 2` to 3 (5 ticks)
and a retentive timer with accumulator 4 and preset 100 ends at 9. -/
theorem update_adds_elapsed_ticks_across_wrap_witness :
    addW 32 4294967294 5 = 3 ∧
    (update 32 Kind.retentive
      (addW 32 ({ zeroed with _Preset := 100, _Accumulator := 4, _Enable := true,
                              _LastMillis := 4294967294 } : Multi_Timer)._LastMillis 5)
      { zeroed with _Preset := 100, _Accumulator := 4, _Enable := true,
                    _LastMillis := 4294967294 }).2._Accumulator
      = min (({ zeroed with _Preset := 100, _Accumulator := 4, _Enable := true,
                            _LastMillis := 4294967294 } : Multi_Timer)._Accumulator + 5)
          ({ zeroed with _Preset := 100, _Accumulator := 4, _Enable := true,
                         _LastMillis := 4294967294 } : Multi_Timer)._Preset :=
  ⟨by decide,
    (update_adds_elapsed_ticks_across_wrap 32 5 Kind.retentive
      { zeroed with _Preset := 100, _Accumulator := 4, _Enable := true,
                    _LastMillis := 4294967294 } (by decide)).2.1
      (by decide) rfl rfl⟩

/-- C15 (the code at the failing input): a retentive timer with preset
`2 ^ 32 - 1` constructed in zeroed storage, `enable` held true and `reset`
false, 32-bit words, updated at clocks `2 ^ 31` and `2 ^ 32 - 6`: the
accumulator is `2 ^ 32 - 6 ≤ preset` and done is false. The third update
samples the wrapped clock 4 (10 ticks later): the reset predicate is false,
the true sum `2 ^ 32 + 4` exceeds the preset, yet the unsigned sum wraps, the
accumulator drops to 4 instead of saturating at the preset, and done is not
set. -/
theorem update_wraps_when_sum_overflows :
    (update 32 Kind.retentive 4294967290
      (update 32 Kind.retentive 2147483648
        ((Multi_Timer.construct1 zeroed 4294967295).setEnable true)).2).2._Accumulator
      = 4294967290 ∧
    (update 32 Kind.retentive 4294967290
      (update 32 Kind.retentive 2147483648
        ((Multi_Timer.construct1 zeroed 4294967295).setEnable true)).2).2._Done = false ∧
    addW 32 4294967290 10 = 4 ∧
    (reset Kind.retentive (Multi_Timer.accumulate 32 4
      (update 32 Kind.retentive 4294967290
        (update 32 Kind.retentive 2147483648
          ((Multi_Timer.construct1 zeroed 4294967295).setEnable true)).2).2)).1 = false ∧
    (update 32 Kind.retentive 4
      (update 32 Kind.retentive 4294967290
        (update 32 Kind.retentive 2147483648
          ((Multi_Timer.construct1 zeroed 4294967295).setEnable true)).2).2).2._Accumulator
      = 4 ∧
    min (4294967290 + 10) 4294967295 = 4294967295 ∧
    (update 32 Kind.retentive 4
      (update 32 Kind.retentive 4294967290
        (update 32 Kind.retentive 2147483648
          ((Multi_Timer.construct1 zeroed 4294967295).setEnable true)).2).2).2.isDone
      = false ∧
    (update 32 Kind.retentive 4
      (update 32 Kind.retentive 4294967290
        (update 32 Kind.retentive 2147483648
          ((Multi_Timer.construct1 zeroed 4294967295).setEnable true)).2).2).1 = false := by
  decide

/-- The base `update()` on sums that fit a word: with
`_Accumulator + d < 2 ^ w`, enable or control true and the reset predicate
false, it leaves `min (_Accumulator + d) _Preset`, sets done (and returns
true) whenever `_Accumulator + d ≥ _Preset`, and does not lower an accumulator
that was `≤ _Preset`. Sums that do not fit a word wrap. -/
theorem base_update_saturates (w d : Nat) (k : Kind) (s : Multi_Timer)
    (hk : k ≠ Kind.offDelay) (hrun : (s._Enable || s._Control) = true)
    (hle : s._Accumulator ≤ s._Preset) (hsum : s._Accumulator + d < 2 ^ w)
    (hnr : (reset k (Multi_Timer.accumulate w (addW w s._LastMillis d) s)).1 = false) :
    (update w k (addW w s._LastMillis d) s).2._Accumulator
      = min (s._Accumulator + d) s._Preset ∧
    (s._Preset ≤ s._Accumulator + d →
      (update w k (addW w s._LastMillis d) s).2._Done = true ∧
      (update w k (addW w s._LastMillis d) s).1 = true) ∧
    s._Accumulator ≤ (update w k (addW w s._LastMillis d) s).2._Accumulator := by
  obtain ⟨ha, hd⟩ := accumulate_no_overflow w d s hrun hsum
  have hA : (update w k (addW w s._LastMillis d) s).2._Accumulator
      = min (s._Accumulator + d) s._Preset := by
    rw [update_eq, if_neg hk, base_update_Accumulator, hnr]
    exact ha
  refine ⟨hA, ?_, ?_⟩
  · intro hp
    have hD : (update w k (addW w s._LastMillis d) s).2._Done = true := by
      rw [update_eq, if_neg hk, base_update_Done, hnr, hd, decide_eq_true hp, Bool.or_true]
      rfl
    refine ⟨hD, ?_⟩
    rw [update_eq, if_neg hk, base_update_fst]
    rw [update_eq, if_neg hk] at hD
    exact hD
  · rw [hA]
    exact Nat.le_min.mpr ⟨Nat.le_add_right _ _, hle⟩

/-! ## C16: the retentive timer -/

/-- C16: for every state and clock value, `update()` of a retentive timer with
`enable = false`, `control = false`, `reset = false` leaves accumulator and
done unchanged and sets `_LastMillis` to the sampled clock, so that a later
enabled update `d` ticks on adds `d` only; `update()` with `reset = true`
always leaves accumulator 0 and done false. -/
theorem retentive_keeps_count_while_disabled (w millis : Nat) (s : Multi_Timer) :
    (update w Kind.retentive millis
      (((s.setEnable false).setCtrl false).setReset false)).2._Accumulator
        = s._Accumulator ∧
    (update w Kind.retentive millis
      (((s.setEnable false).setCtrl false).setReset false)).2._Done = s._Done ∧
    (update w Kind.retentive millis
      (((s.setEnable false).setCtrl false).setReset false)).2._LastMillis = millis ∧
    (∀ d : Nat, s._Accumulator + d < 2 ^ w →
      (update w Kind.retentive (addW w millis d)
        ((update w Kind.retentive millis
          (((s.setEnable false).setCtrl false).setReset false)).2.setEnable
            true)).2._Accumulator = min (s._Accumulator + d) s._Preset) ∧
    (update w Kind.retentive millis (s.setReset true)).2._Accumulator = 0 ∧
    (update w Kind.retentive millis (s.setReset true)).2._Done = false := by
  have hk : ∀ t, update w Kind.retentive t = Multi_Timer.update w Kind.retentive t :=
    fun _ => rfl
  have hA : (update w Kind.retentive millis
      (((s.setEnable false).setCtrl false).setReset false)).2._Accumulator
        = s._Accumulator := by
    rw [hk, base_update_Accumulator]
    simp [reset, RetentiveTimer.reset, accumulate_eq, Multi_Timer.setEnable,
      Multi_Timer.setReset, Multi_Timer.setCtrl]
  have hL : (update w Kind.retentive millis
      (((s.setEnable false).setCtrl false).setReset false)).2._LastMillis = millis := by
    rw [hk, base_update_LastMillis]
  refine ⟨hA, ?_, hL, ?_, ?_, ?_⟩
  · rw [hk, base_update_Done]
    simp [reset, RetentiveTimer.reset, accumulate_eq, Multi_Timer.setEnable,
      Multi_Timer.setReset, Multi_Timer.setCtrl]
  · intro d hd
    have hP : (update w Kind.retentive millis
        (((s.setEnable false).setCtrl false).setReset false)).2._Preset = s._Preset := by
      rw [hk, base_update_Preset]
      rfl
    have hR : (update w Kind.retentive millis
        (((s.setEnable false).setCtrl false).setReset false)).2._Reset = false := by
      rw [hk, base_update_Reset]
      rfl
    have h := accumulate_no_overflow w d
      ((update w Kind.retentive millis
        (((s.setEnable false).setCtrl false).setReset false)).2.setEnable true) rfl
      (by
        show (update w Kind.retentive millis
          (((s.setEnable false).setCtrl false).setReset false)).2._Accumulator + d < 2 ^ w
        rw [hA]
        exact hd)
    have hL1 : ((update w Kind.retentive millis
        (((s.setEnable false).setCtrl false).setReset false)).2.setEnable true)._LastMillis
          = millis := hL
    have hA1 : ((update w Kind.retentive millis
        (((s.setEnable false).setCtrl false).setReset false)).2.setEnable true)._Accumulator
          = s._Accumulator := hA
    have hP1 : ((update w Kind.retentive millis
        (((s.setEnable false).setCtrl false).setReset false)).2.setEnable true)._Preset
          = s._Preset := hP
    rw [hL1, hA1, hP1] at h
    rw [hk (addW w millis d), base_update_Accumulator]
    have hnr : (reset Kind.retentive (Multi_Timer.accumulate w (addW w millis d)
        ((update w Kind.retentive millis
          (((s.setEnable false).setCtrl false).setReset false)).2.setEnable true))).1
        = false := by
      simp only [reset, RetentiveTimer.reset, accumulate_eq]
      exact hR
    rw [hnr]
    exact h.1
  · rw [hk, base_update_Accumulator]
    simp [reset, RetentiveTimer.reset, accumulate_eq, Multi_Timer.setReset]
  · rw [hk, base_update_Done]
    simp [reset, RetentiveTimer.reset, accumulate_eq, Multi_Timer.setReset]

/-! ## C17: the reset predicate of the retriggerable timer -/

/-- C17: let `s2` carry the two arming latches that an evaluation of
`RetriggerableTimer::reset` on `s` left. The next evaluation, on `s2`,
returns true iff `_Reset` is true or `_Control` differs from the `_Control`
of the first evaluation; and after each evaluation `_WD_Rising_Setup` is
`!_Control` and `_WD_Falling_Setup` is `_Control`. -/
theorem retriggerable_reset_iff_control_changed (s s2 : Multi_Timer)
    (hr : s2._WD_Rising_Setup = (RetriggerableTimer.reset s).2._WD_Rising_Setup)
    (hf : s2._WD_Falling_Setup = (RetriggerableTimer.reset s).2._WD_Falling_Setup) :
    ((RetriggerableTimer.reset s2).1 = true ↔
      (s2._Reset = true ∨ s2._Control ≠ s._Control)) ∧
    (RetriggerableTimer.reset s).2._WD_Rising_Setup = (!s._Control) ∧
    (RetriggerableTimer.reset s).2._WD_Falling_Setup = s._Control ∧
    (RetriggerableTimer.reset s2).2._WD_Rising_Setup = (!s2._Control) ∧
    (RetriggerableTimer.reset s2).2._WD_Falling_Setup = s2._Control := by
  have e1 : (RetriggerableTimer.reset s).2._WD_Rising_Setup = (!s._Control) := rfl
  have e2 : (RetriggerableTimer.reset s).2._WD_Falling_Setup = s._Control := rfl
  rw [e1] at hr
  rw [e2] at hf
  refine ⟨?_, rfl, rfl, rfl, rfl⟩
  have e3 : (RetriggerableTimer.reset s2).1 =
      ((!s2._Control && s2._WD_Falling_Setup) || (s2._Control && s2._WD_Rising_Setup)
        || s2._Reset) := rfl
  rw [e3, hr, hf]
  cases s2._Control <;> cases s._Control <;> cases s2._Reset <;> simp

/-- Witness for C17: control goes from false to true between two evaluations. -/
theorem retriggerable_reset_iff_control_changed_witness :
    (RetriggerableTimer.reset
      ((RetriggerableTimer.reset zeroed).2.setCtrl true)).1 = true ↔
      (((RetriggerableTimer.reset zeroed).2.setCtrl true)._Reset = true ∨
        ((RetriggerableTimer.reset zeroed).2.setCtrl true)._Control ≠ zeroed._Control) :=
  (retriggerable_reset_iff_control_changed zeroed
    ((RetriggerableTimer.reset zeroed).2.setCtrl true) rfl rfl).1

/-! ## C18: the on-delay timer held in reset -/

/-- An on-delay `update()` called with `reset` true or `enable` false. -/
theorem onDelay_update_cleared (w millis : Nat) (s : Multi_Timer)
    (h : s._Reset = true ∨ s._Enable = false) :
    (update w Kind.onDelay millis s).2._Accumulator = 0 ∧
    (update w Kind.onDelay millis s).2.isDone = false ∧
    (update w Kind.onDelay millis s).2.isRunning = false ∧
    (update w Kind.onDelay millis s).1 = false := by
  have hk : update w Kind.onDelay millis = Multi_Timer.update w Kind.onDelay millis := rfl
  have hr : (reset Kind.onDelay (Multi_Timer.accumulate w millis s)).1 = true := by
    simp only [reset, OnDelayTimer.reset, accumulate_eq]
    rcases h with h | h
    · rw [h]
      rfl
    · rw [h]
      exact Bool.or_true _
  have hD : (Multi_Timer.update w Kind.onDelay millis s).2._Done = false := by
    rw [base_update_Done, hr]
    rfl
  have hC : (Multi_Timer.update w Kind.onDelay millis s).2._Control = false := by
    rw [base_update_Control, hr]
    rfl
  refine ⟨?_, ?_, ?_, ?_⟩
  · rw [hk, base_update_Accumulator, hr]
    rfl
  · rw [hk]
    exact hD
  · rw [hk]
    show (Multi_Timer.update w Kind.onDelay millis s).2._TimerRunning = false
    rw [base_update_TimerRunning, hC, hD]
    rcases h with h | h
    · rw [h]
      simp
    · rw [h]
      rfl
  · rw [hk, base_update_fst]
    exact hD

/-- C18: for every state and clock value, if `reset` is true or `enable` is
false when `update()` of an on-delay timer is called, then afterwards the
accumulator is 0, `isDone()` and `isRunning()` are false and `update()`
returned false; hence after every on-delay update, done implies
`enable = true` and `reset = false`. -/
theorem onDelay_cleared_when_reset_or_disabled (w millis : Nat) (s : Multi_Timer) :
    ((s._Reset = true ∨ s._Enable = false) →
      (update w Kind.onDelay millis s).2._Accumulator = 0 ∧
      (update w Kind.onDelay millis s).2.isDone = false ∧
      (update w Kind.onDelay millis s).2.isRunning = false ∧
      (update w Kind.onDelay millis s).1 = false) ∧
    ((update w Kind.onDelay millis s).2.isDone = true →
      (update w Kind.onDelay millis s).2.isEnabled = true ∧
      (update w Kind.onDelay millis s).2.isReset = false) := by
  refine ⟨onDelay_update_cleared w millis s, ?_⟩
  intro hd
  have hk : update w Kind.onDelay millis = Multi_Timer.update w Kind.onDelay millis := rfl
  have hE : (update w Kind.onDelay millis s).2.isEnabled = s._Enable := by
    rw [hk]
    exact base_update_Enable w Kind.onDelay millis s
  have hR : (update w Kind.onDelay millis s).2.isReset = s._Reset := by
    rw [hk]
    exact base_update_Reset w Kind.onDelay millis s
  rw [hE, hR]
  refine ⟨?_, ?_⟩
  · cases he : s._Enable
    · rw [(onDelay_update_cleared w millis s (Or.inr he)).2.1] at hd
      exact Bool.noConfusion hd
    · rfl
  · cases hr : s._Reset
    · rfl
    · rw [(onDelay_update_cleared w millis s (Or.inl hr)).2.1] at hd
      exact Bool.noConfusion hd

/-- Witness for C18: `reset = true` on an enabled on-delay timer that is done. -/
theorem onDelay_cleared_when_reset_or_disabled_witness :
    (update 32 Kind.onDelay 9
      { zeroed with _Preset := 5, _Accumulator := 5, _Done := true, _Enable := true,
                    _Reset := true }).2._Accumulator = 0 ∧
    (update 32 Kind.onDelay 9
      { zeroed with _Preset := 5, _Accumulator := 5, _Done := true, _Enable := true,
                    _Reset := true }).2.isDone = false ∧
    (update 32 Kind.onDelay 9
      { zeroed with _Preset := 5, _Accumulator := 5, _Done := true, _Enable := true,
                    _Reset := true }).2.isRunning = false ∧
    (update 32 Kind.onDelay 9
      { zeroed with _Preset := 5, _Accumulator := 5, _Done := true, _Enable := true,
                    _Reset := true }).1 = false :=
  (onDelay_cleared_when_reset_or_disabled 32 9
    { zeroed with _Preset := 5, _Accumulator := 5, _Done := true, _Enable := true,
                  _Reset := true }).1 (Or.inl rfl)

/-! ## C19: preset 0 -/

/-- C19: for every base-algorithm timer with preset 0, every prior accumulator
and every pair of clock values, an `update()` in which enable or control is
true and the reset predicate is false returns true and leaves done true. -/
theorem preset_zero_done_on_first_accumulating_update (w : Nat) (k : Kind) (millis : Nat)
    (s : Multi_Timer) (hk : k ≠ Kind.offDelay) (hp : s._Preset = 0)
    (hrun : (s._Enable || s._Control) = true)
    (hnr : (reset k (Multi_Timer.accumulate w millis s)).1 = false) :
    (update w k millis s).1 = true ∧ (update w k millis s).2.isDone = true := by
  have hD : (Multi_Timer.update w k millis s).2._Done = true := by
    rw [base_update_Done, hnr]
    simp only [accumulate_eq, hrun, hp, Nat.zero_le, decide_True, Bool.true_and,
      Bool.or_true, Bool.not_false]
  rw [update_eq, if_neg hk, base_update_fst]
  exact ⟨hD, hD⟩

/-- Witness for C19: a retentive timer with preset 0, enabled, zero clock delta. -/
theorem preset_zero_done_on_first_accumulating_update_witness :
    (update 32 Kind.retentive 0 ((Multi_Timer.construct1 zeroed 0).setEnable true)).1 = true ∧
    (update 32 Kind.retentive 0
      ((Multi_Timer.construct1 zeroed 0).setEnable true)).2.isDone = true :=
  preset_zero_done_on_first_accumulating_update 32 Kind.retentive 0
    ((Multi_Timer.construct1 zeroed 0).setEnable true) (by decide) rfl rfl rfl

/-! ## C20: the first rising edge after construction -/

/-- C20 (the code at the failing input): an on-delay timer with preset 1000
constructed in zeroed storage, `setEnable(true)`, first `update()` at clock
5000: `isDone()` becomes true on this first update while `getDoneRose()`
stays false, because the constructor leaves `_Done_Rising_Setup` unarmed. -/
theorem first_update_done_without_rose_edge :
    (Multi_Timer.construct1 zeroed 1000)._Done = false ∧
    (Multi_Timer.construct1 zeroed 1000)._Done_Rising_Setup = false ∧
    (update 32 Kind.onDelay 5000
      ((Multi_Timer.construct1 zeroed 1000).setEnable true)).2.isDone = true ∧
    (update 32 Kind.onDelay 5000
      ((Multi_Timer.construct1 zeroed 1000).setEnable true)).2.getDoneRose = false := by
  decide

/-! ## C21: the off-delay override is the dual of the on-delay base update -/

theorem offDelay_update_Reset (w millis : Nat) (s : Multi_Timer) :
    (OffDelayTimer.update w millis s).2._Reset = s._Reset := by
  simp only [OffDelayTimer.update, offDelay_conditionRunning_eq, Multi_Timer.edges,
    offDelay_clearIfReset_eq, offDelay_accumulate_eq]

theorem offDelay_update_Enable (w millis : Nat) (s : Multi_Timer) :
    (OffDelayTimer.update w millis s).2._Enable = s._Enable := by
  simp only [OffDelayTimer.update, offDelay_conditionRunning_eq, Multi_Timer.edges,
    offDelay_clearIfReset_eq, offDelay_accumulate_eq]

theorem offDelay_update_TimerRunning (w millis : Nat) (s : Multi_Timer) :
    (OffDelayTimer.update w millis s).2._TimerRunning =
      ((!s._Enable) && (OffDelayTimer.update w millis s).2._Done && !s._Reset) := by
  simp only [OffDelayTimer.update, offDelay_conditionRunning_eq, Multi_Timer.edges,
    offDelay_clearIfReset_eq, offDelay_accumulate_eq]

/-- Done after the off-delay update is the negation of done after the
on-delay update of the dual object. -/
theorem dual_update_Done (w millis : Nat) (o n : Multi_Timer) (h : OffOnDual o n) :
    (OffDelayTimer.update w millis o).2._Done =
      !(Multi_Timer.update w Kind.onDelay millis n).2._Done := by
  obtain ⟨h1, h2, h3, h4, -, h6, h7, h8, -, -, -, -⟩ := h
  rw [offDelay_update_Done, base_update_Done]
  simp only [offDelay_accumulate_eq, accumulate_eq, reset, OnDelayTimer.reset, h1, h2, h3, h4,
    h6, h7, h8]
  generalize decide (n._Preset ≤ subW w (addW w n._Accumulator millis) n._LastMillis) = d
  cases n._Enable <;> cases n._Reset <;> cases n._Done <;> cases d <;> rfl

/-- The two updates leave the same accumulator. -/
theorem dual_update_Accumulator (w millis : Nat) (o n : Multi_Timer) (h : OffOnDual o n) :
    (OffDelayTimer.update w millis o).2._Accumulator =
      (Multi_Timer.update w Kind.onDelay millis n).2._Accumulator := by
  obtain ⟨h1, h2, h3, h4, -, h6, h7, -, -, -, -, -⟩ := h
  rw [offDelay_update_Accumulator, base_update_Accumulator]
  simp only [offDelay_accumulate_eq, accumulate_eq, reset, OnDelayTimer.reset, h1, h2, h3, h4,
    h6, h7]
  cases n._Enable <;> cases n._Reset <;> simp

/-- C21: for every off-delay object `o` and on-delay object `n` related by the
duality (same preset, accumulator, `_LastMillis`, reset, running; enable
negated; control false; done negated; edge flags swapped; arming latches
swapped) and every clock value, `OffDelayTimer::update` and the base update
with `OnDelayTimer::reset` return the same boolean and leave objects that are
related again. -/
theorem offDelay_update_is_dual_of_onDelay_update (w millis : Nat) (o n : Multi_Timer)
    (h : OffOnDual o n) :
    (update w Kind.offDelay millis o).1 = (update w Kind.onDelay millis n).1 ∧
    OffOnDual (update w Kind.offDelay millis o).2 (update w Kind.onDelay millis n).2 := by
  have ho : update w Kind.offDelay millis o = OffDelayTimer.update w millis o := rfl
  have hn : update w Kind.onDelay millis n = Multi_Timer.update w Kind.onDelay millis n := rfl
  have hD := dual_update_Done w millis o n h
  have hA := dual_update_Accumulator w millis o n h
  obtain ⟨h1, -, -, h4, -, h6, h7, -, -, -, h11, h12⟩ := h
  rw [ho, hn]
  refine ⟨?_, ?_, hA, ?_, ?_, ?_, ?_, ?_, hD, ?_, ?_, ?_, ?_⟩
  · rw [offDelay_update_fst, base_update_fst, hD, Bool.not_not]
  · rw [offDelay_update_Preset, base_update_Preset, h1]
  · rw [offDelay_update_LastMillis, base_update_LastMillis]
  · rw [offDelay_update_Reset, base_update_Reset, h4]
  · rw [offDelay_update_TimerRunning, base_update_TimerRunning, base_update_Control, hD, h6,
      h4, h7, Bool.not_not, Bool.and_false, Bool.or_false]
  · rw [offDelay_update_Enable, base_update_Enable, h6]
  · rw [base_update_Control, h7, Bool.and_false]
  · rw [offDelay_update_Done_OSR, base_update_Done_OSF, hD, h11]
  · rw [offDelay_update_Done_OSF, base_update_Done_OSR, hD, h12, Bool.not_not]
  · rw [offDelay_update_Done_Rising_Setup, base_update_Done_Falling_Setup, hD, Bool.not_not]
  · rw [offDelay_update_Done_Falling_Setup, base_update_Done_Rising_Setup, hD]

/-- Witness for C21: an off-delay timer one tick into its delay and the
on-delay timer one tick into its delay, preset 3, clock sample 9. -/
theorem offDelay_update_is_dual_of_onDelay_update_witness :
    OffOnDual
      { zeroed with _Preset := 3, _Accumulator := 1, _LastMillis := 8, _Done := true,
                    _Done_Falling_Setup := true, _TimerRunning := true }
      { zeroed with _Preset := 3, _Accumulator := 1, _LastMillis := 8, _Enable := true,
                    _Done_Rising_Setup := true, _TimerRunning := true } ∧
    (update 32 Kind.offDelay 9
      { zeroed with _Preset := 3, _Accumulator := 1, _LastMillis := 8, _Done := true,
                    _Done_Falling_Setup := true, _TimerRunning := true }).1 =
      (update 32 Kind.onDelay 9
        { zeroed with _Preset := 3, _Accumulator := 1, _LastMillis := 8, _Enable := true,
                      _Done_Rising_Setup := true, _TimerRunning := true }).1 ∧
    OffOnDual
      (update 32 Kind.offDelay 9
        { zeroed with _Preset := 3, _Accumulator := 1, _LastMillis := 8, _Done := true,
                      _Done_Falling_Setup := true, _TimerRunning := true }).2
      (update 32 Kind.onDelay 9
        { zeroed with _Preset := 3, _Accumulator := 1, _LastMillis := 8, _Enable := true,
                      _Done_Rising_Setup := true, _TimerRunning := true }).2 :=
  ⟨by decide,
    offDelay_update_is_dual_of_onDelay_update 32 9
      { zeroed with _Preset := 3, _Accumulator := 1, _LastMillis := 8, _Done := true,
                    _Done_Falling_Setup := true, _TimerRunning := true }
      { zeroed with _Preset := 3, _Accumulator := 1, _LastMillis := 8, _Enable := true,
                    _Done_Rising_Setup := true, _TimerRunning := true } (by decide)⟩

/-! ## C22: done lasts one update in the pulse generator and the flasher -/

/-- No call other than `update()` writes `_Done_OSR`. -/
theorem applyCalls_Done_OSR (cs : List Call) (s : Multi_Timer) :
    (applyCalls cs s)._Done_OSR = s._Done_OSR := by
  induction cs generalizing s with
  | nil => rfl
  | cons c cs ih =>
    have hc : (c.apply s)._Done_OSR = s._Done_OSR := by
      cases c <;>
        simp only [Call.apply, Multi_Timer.setEnable, Multi_Timer.setReset,
          Multi_Timer.setCtrl, Start_eq, FlasherTimer.setOnTime, isFlashing_eq]
    exact (ih (c.apply s)).trans hc

/-- The reset predicates of the pulse generator and the flasher hold whenever
the previous update left `_Done_OSR` true. -/
theorem reset_of_Done_OSR (w millis : Nat) (k : Kind)
    (hk : k = Kind.pulseGen ∨ k = Kind.flasher) (s : Multi_Timer)
    (h : s._Done_OSR = true) :
    (reset k (Multi_Timer.accumulate w millis s)).1 = true := by
  rcases hk with hk | hk <;> subst hk
  · simp only [reset, PulseGenTimer.reset, accumulate_eq, h, Bool.or_true]
  · simp only [reset, FlasherTimer.reset, accumulate_eq, h, Bool.or_true]

/-- One `update()` of a pulse generator or flasher from a state whose rising
latch and rose-edge flag agree with done: they agree again afterwards, and if
done was true the timer is cleared. -/
theorem pulse_update_step (w millis : Nat) (k : Kind)
    (hk : k = Kind.pulseGen ∨ k = Kind.flasher) (s : Multi_Timer)
    (hRS : s._Done_Rising_Setup = (!s._Done)) (hOSR : s._Done_OSR = s._Done) :
    (update w k millis s).2._Done_Rising_Setup = (!(update w k millis s).2._Done) ∧
    (update w k millis s).2._Done_OSR = (update w k millis s).2._Done ∧
    (s._Done = true →
      (update w k millis s).2._Done = false ∧ (update w k millis s).2._Accumulator = 0) := by
  have hne : k ≠ Kind.offDelay := by
    rcases hk with hk | hk <;> subst hk <;> decide
  have hclear : s._Done = true →
      (update w k millis s).2._Done = false ∧ (update w k millis s).2._Accumulator = 0 := by
    intro hd
    have hr := reset_of_Done_OSR w millis k hk s (hOSR.trans hd)
    rw [update_eq, if_neg hne, base_update_Done, base_update_Accumulator, hr]
    exact ⟨rfl, rfl⟩
  refine ⟨update_Done_Rising_Setup w k millis s, ?_, hclear⟩
  rw [update_Done_OSR, hRS]
  cases hd : s._Done
  · exact Bool.and_true _
  · rw [(hclear hd).1]
    rfl

/-- The agreement of latch and rose-edge flag with done survives any sequence
of scans. -/
theorem runScans_pulse_inv (w : Nat) (k : Kind) (hk : k = Kind.pulseGen ∨ k = Kind.flasher) :
    ∀ (scans : List (List Call × Nat)) (s : Multi_Timer),
      s._Done_Rising_Setup = (!s._Done) → s._Done_OSR = s._Done →
      (runScans w k scans s)._Done_Rising_Setup = (!(runScans w k scans s)._Done) ∧
      (runScans w k scans s)._Done_OSR = (runScans w k scans s)._Done
  | [], _, hRS, hOSR => ⟨hRS, hOSR⟩
  | (inputs, millis) :: rest, s, hRS, hOSR => by
    obtain ⟨f1, f2, -⟩ := applyCalls_frame inputs s
    have f3 := applyCalls_Done_OSR inputs s
    obtain ⟨g1, g2, -⟩ := pulse_update_step w millis k hk (applyCalls inputs s)
      (by rw [f2, f1]; exact hRS) (by rw [f3, f1]; exact hOSR)
    exact runScans_pulse_inv w k hk rest (scan w k inputs millis s) g1 g2

/-- One scan from a state whose latch and rose-edge flag agree with done. -/
theorem scan_pulse_clears (w millis : Nat) (k : Kind)
    (hk : k = Kind.pulseGen ∨ k = Kind.flasher) (inputs : List Call) (s : Multi_Timer)
    (hRS : s._Done_Rising_Setup = (!s._Done)) (hOSR : s._Done_OSR = s._Done)
    (hd : s._Done = true) :
    (scan w k inputs millis s)._Done = false ∧ (scan w k inputs millis s)._Accumulator = 0 := by
  obtain ⟨f1, f2, -⟩ := applyCalls_frame inputs s
  have f3 := applyCalls_Done_OSR inputs s
  exact (pulse_update_step w millis k hk (applyCalls inputs s)
    (by rw [f2, f1]; exact hRS) (by rw [f3, f1]; exact hOSR)).2.2 (f1.trans hd)

/-- C22 as stated fails: a pulse generator with preset 1000 constructed in
zeroed storage and first updated at clock 5000 is left done with the rising
latch equal to `!done` (and nothing to require of `doneRoseEdge`, done being
true), yet the next two updates both leave done true. -/
theorem pulseGen_done_on_two_consecutive_updates :
    (update 32 Kind.pulseGen 5000
      ((Multi_Timer.construct1 zeroed 1000).setEnable true)).2._Done_Rising_Setup =
      (!(update 32 Kind.pulseGen 5000
        ((Multi_Timer.construct1 zeroed 1000).setEnable true)).2._Done) ∧
    ((update 32 Kind.pulseGen 5000
      ((Multi_Timer.construct1 zeroed 1000).setEnable true)).2._Done = false →
      (update 32 Kind.pulseGen 5000
        ((Multi_Timer.construct1 zeroed 1000).setEnable true)).2._Done_OSR = false) ∧
    (update 32 Kind.pulseGen 5001
      (update 32 Kind.pulseGen 5000
        ((Multi_Timer.construct1 zeroed 1000).setEnable true)).2).2.isDone = true ∧
    (update 32 Kind.pulseGen 5002
      (update 32 Kind.pulseGen 5001
        (update 32 Kind.pulseGen 5000
          ((Multi_Timer.construct1 zeroed 1000).setEnable true)).2).2).2.isDone = true := by
  decide

/-- C22, amended: for a pulse generator or a flasher, from every state in
which the rising latch is `!done` and `doneRoseEdge` equals done (false when
done is false, true when done is true), and for every subsequent sequence of
input writes and clock values, the update following one that left done true
leaves done false and the accumulator 0; so `isDone()` is never true after
two consecutive `update()` calls. -/
theorem pulse_done_lasts_one_update (w : Nat) (k : Kind)
    (hk : k = Kind.pulseGen ∨ k = Kind.flasher) (s : Multi_Timer)
    (hRS : s._Done_Rising_Setup = (!s._Done)) (hOSR : s._Done_OSR = s._Done)
    (scans : List (List Call × Nat)) (c1 c2 : List Call) (t1 t2 : Nat) :
    ((runScans w k scans s).isDone = true →
      (scan w k c1 t1 (runScans w k scans s)).isDone = false ∧
      (scan w k c1 t1 (runScans w k scans s)).getCount = 0) ∧
    ((scan w k c1 t1 (runScans w k scans s)).isDone = true →
      (scan w k c2 t2 (scan w k c1 t1 (runScans w k scans s))).isDone = false ∧
      (scan w k c2 t2 (scan w k c1 t1 (runScans w k scans s))).getCount = 0) ∧
    ¬ ((scan w k c1 t1 (runScans w k scans s)).isDone = true ∧
       (scan w k c2 t2 (scan w k c1 t1 (runScans w k scans s))).isDone = true) := by
  obtain ⟨i1, i2⟩ := runScans_pulse_inv w k hk scans s hRS hOSR
  obtain ⟨j1, j2⟩ := runScans_pulse_inv w k hk [(c1, t1)] (runScans w k scans s) i1 i2
  have hstep : (scan w k c1 t1 (runScans w k scans s)).isDone = true →
      (scan w k c2 t2 (scan w k c1 t1 (runScans w k scans s))).isDone = false ∧
      (scan w k c2 t2 (scan w k c1 t1 (runScans w k scans s))).getCount = 0 :=
    fun hd => scan_pulse_clears w t2 k hk c2 _ j1 j2 hd
  refine ⟨fun hd => scan_pulse_clears w t1 k hk c1 _ i1 i2 hd, hstep, ?_⟩
  rintro ⟨hd1, hd2⟩
  rw [(hstep hd1).1] at hd2
  exact Bool.noConfusion hd2

/-- Witness for the amended C22: a pulse generator with preset 2, cleared at
clock 0, scanned at clocks 1 and 2 (done rises), then at 3 and 4. -/
theorem pulse_done_lasts_one_update_witness :
    ¬ ((scan 32 Kind.pulseGen holdEnabledOnly 3
        (runScans 32 Kind.pulseGen [(holdEnabledOnly, 1), (holdEnabledOnly, 2)]
          (clearedAt 2 0))).isDone = true ∧
       (scan 32 Kind.pulseGen holdEnabledOnly 4
        (scan 32 Kind.pulseGen holdEnabledOnly 3
          (runScans 32 Kind.pulseGen [(holdEnabledOnly, 1), (holdEnabledOnly, 2)]
            (clearedAt 2 0)))).isDone = true) :=
  (pulse_done_lasts_one_update 32 Kind.pulseGen (Or.inl rfl) (clearedAt 2 0) rfl rfl
    [(holdEnabledOnly, 1), (holdEnabledOnly, 2)] holdEnabledOnly holdEnabledOnly 3 4).2.2

/-! ## C23: the retriggerable timer sees its own cleared control as an edge -/

/-- One `update()` of a retriggerable timer: `clear` is what its reset
predicate returns. -/
theorem retriggerable_update (w millis : Nat) (s : Multi_Timer) :
    (reset Kind.retriggerable (Multi_Timer.accumulate w millis s)).1 =
      ((!s._Control && s._WD_Falling_Setup) || (s._Control && s._WD_Rising_Setup)
        || s._Reset) ∧
    (update w Kind.retriggerable millis s).2._Control =
      (!(reset Kind.retriggerable (Multi_Timer.accumulate w millis s)).1 && s._Control) ∧
    (update w Kind.retriggerable millis s).2._Reset = s._Reset ∧
    (update w Kind.retriggerable millis s).2._WD_Rising_Setup = (!s._Control) ∧
    (update w Kind.retriggerable millis s).2._WD_Falling_Setup = s._Control ∧
    ((reset Kind.retriggerable (Multi_Timer.accumulate w millis s)).1 = true →
      (update w Kind.retriggerable millis s).2._Accumulator = 0 ∧
      (update w Kind.retriggerable millis s).2._Done = false) := by
  have hk : update w Kind.retriggerable millis
      = Multi_Timer.update w Kind.retriggerable millis := rfl
  refine ⟨?_, ?_, ?_, ?_, ?_, ?_⟩
  · simp only [reset, RetriggerableTimer.reset, accumulate_eq]
  · rw [hk, base_update_Control]
  · rw [hk, base_update_Reset]
  · simp only [hk, Multi_Timer.update, conditionRunning_eq, Multi_Timer.edges, clearIfReset_eq,
      reset, RetriggerableTimer.reset, accumulate_eq]
  · simp only [hk, Multi_Timer.update, conditionRunning_eq, Multi_Timer.edges, clearIfReset_eq,
      reset, RetriggerableTimer.reset, accumulate_eq]
  · intro hr
    rw [hk, base_update_Accumulator, base_update_Done, hr]
    exact ⟨rfl, rfl⟩

/-- C23: let `s` be left by an `update()` of a retriggerable timer with
`control = false` and `reset = false`. If the caller calls `setCtrl(true)`
once and then `update()` twice without writing any input in between, the
first update clears the timer and leaves control false, and the second update
clears it again: both end with accumulator 0 and done false, for every clock
sequence. -/
theorem retriggerable_setCtrl_clears_twice (w t0 t1 t2 : Nat) (s0 s s1 s2 : Multi_Timer)
    (hs : s = (update w Kind.retriggerable t0 ((s0.setCtrl false).setReset false)).2)
    (h1 : s1 = (update w Kind.retriggerable t1 (s.setCtrl true)).2)
    (h2 : s2 = (update w Kind.retriggerable t2 s1).2) :
    s1._Accumulator = 0 ∧ s1._Done = false ∧ s1._Control = false ∧
    s2._Accumulator = 0 ∧ s2._Done = false := by
  obtain ⟨-, -, a3, a4, -, -⟩ :=
    retriggerable_update w t0 ((s0.setCtrl false).setReset false)
  rw [← hs] at a3 a4
  have a3 : s._Reset = false := a3
  have a4 : s._WD_Rising_Setup = true := a4
  obtain ⟨b1, b2, b3, -, b5, b6⟩ := retriggerable_update w t1 (s.setCtrl true)
  rw [← h1] at b2 b3 b5 b6
  have hr1 : (reset Kind.retriggerable (Multi_Timer.accumulate w t1 (s.setCtrl true))).1
      = true := by
    rw [b1]
    show ((!true && s._WD_Falling_Setup) || (true && s._WD_Rising_Setup) || s._Reset) = true
    rw [a4]
    rfl
  have hc1 : s1._Control = false := by
    rw [b2, hr1]
    rfl
  have hf1 : s1._WD_Falling_Setup = true := b5
  obtain ⟨c1, -, -, -, -, c6⟩ := retriggerable_update w t2 s1
  rw [← h2] at c6
  have hr2 : (reset Kind.retriggerable (Multi_Timer.accumulate w t2 s1)).1 = true := by
    rw [c1, hc1, hf1]
    rfl
  exact ⟨(b6 hr1).1, (b6 hr1).2, hc1, (c6 hr2).1, (c6 hr2).2⟩

/-- Witness for C23: a retriggerable timer with preset 5 constructed in zeroed
storage, enabled, updated at clocks 1, 2 and 3 with 32-bit words. -/
theorem retriggerable_setCtrl_clears_twice_witness :
    (update 32 Kind.retriggerable 2
      ((update 32 Kind.retriggerable 1
        ((((Multi_Timer.construct1 zeroed 5).setEnable true).setCtrl false).setReset
          false)).2.setCtrl true)).2._Accumulator = 0 ∧
    (update 32 Kind.retriggerable 2
      ((update 32 Kind.retriggerable 1
        ((((Multi_Timer.construct1 zeroed 5).setEnable true).setCtrl false).setReset
          false)).2.setCtrl true)).2._Done = false ∧
    (update 32 Kind.retriggerable 2
      ((update 32 Kind.retriggerable 1
        ((((Multi_Timer.construct1 zeroed 5).setEnable true).setCtrl false).setReset
          false)).2.setCtrl true)).2._Control = false ∧
    (update 32 Kind.retriggerable 3
      (update 32 Kind.retriggerable 2
        ((update 32 Kind.retriggerable 1
          ((((Multi_Timer.construct1 zeroed 5).setEnable true).setCtrl false).setReset
            false)).2.setCtrl true)).2).2._Accumulator = 0 ∧
    (update 32 Kind.retriggerable 3
      (update 32 Kind.retriggerable 2
        ((update 32 Kind.retriggerable 1
          ((((Multi_Timer.construct1 zeroed 5).setEnable true).setCtrl false).setReset
            false)).2.setCtrl true)).2).2._Done = false :=
  retriggerable_setCtrl_clears_twice 32 1 2 3 ((Multi_Timer.construct1 zeroed 5).setEnable true)
    _ _ _ rfl rfl rfl

end MultiTimer
